import Mathlib

/-!
Verification of the writable-stream reference implementation
(`src/reference-implementation/lib/writable-stream.js`).

The JavaScript code is shallowly embedded as pure functions over an explicit
`WritableStream` state record.  Assertion failures (node `assert`, which throw
and abort the current task) are modelled by returning `none`; every function
returns `Option _` (or `Except _ _` for constructors that throw).  Promises
visible to the producer are modelled as follows:

* the writer's `ready` / `closed` promises are single slots (`PSlot`) that are
  `pending` exactly while their resolve/reject capabilities are still held;
* per-request promises (write requests, the close request, the pending abort
  request) are identified by freshly allocated `Nat` ids whose settlements are
  appended to a `settlements` log;
* calls to the underlying sink are recorded in a `sinkLog`, and their
  asynchronous settlements arrive as separate transition-system operations.

JS `TypeError('Aborted')` values are allocated fresh at each `new` site; the
embedding gives them an allocation id drawn from the stream's `nextId` counter
so that distinct allocations are distinct values.

The files `helpers.js` and `queue-with-sizes.js` are not under `src/`; the few
operations the embedded code needs from them are modelled from the spec and
marked as such in their doc comments.

Chunk sizes and the high-water mark are JS numbers in the source; they are
embedded as `Int`.  Every claim uses them only through subtraction and order
comparisons, which `Int` represents faithfully; float-specific behaviour (NaN,
infinities, rounding) is outside the embedding.
-/

set_option maxHeartbeats 1600000

namespace Streams

/-- The stream state: `writable`, `closed` or `errored` (`_state`). -/
inductive SState
  | writable
  | closed
  | errored
deriving DecidableEq

/-- Error values produced by this layer.  Constructors correspond to the
`new TypeError(...)` / `new RangeError(...)` sites in the source; `aborted`
carries an allocation id because the source allocates a fresh
`TypeError('Aborted')` at each site.  `sinkErr` and `strategyErr` stand for
opaque values propagated from the sink or the queuing strategy. -/
inductive Err
  | aborted (id : Nat)
  | abortClosed
  | invalidType
  | invalidHWM
  | invalidSize
  | alreadyLocked
  | streamLockedAbort
  | alreadyClosing
  | writeAfterClose
  | notWritableWrite (st : SState)
  | notWritableClose (st : SState)
  | cannotError (st : SState)
  | lockError
  | released
  | sinkErr (n : Nat)
  | strategyErr (n : Nat)
deriving DecidableEq

/-- Which JavaScript error class each error value of this layer belongs to:
`true` for the `new TypeError(...)` sites of the source, `false` for the
`new RangeError(...)` sites (`invalidType` is the `RangeError('Invalid type is
specified')` of the `WritableStream` constructor) and for opaque foreign
values. -/
def Err.isTypeError : Err → Bool
  | .aborted _ => true
  | .abortClosed => true
  | .invalidType => false
  | .invalidHWM => false
  | .invalidSize => false
  | .alreadyLocked => true
  | .streamLockedAbort => true
  | .alreadyClosing => true
  | .writeAfterClose => true
  | .notWritableWrite _ => true
  | .notWritableClose _ => true
  | .cannotError _ => true
  | .lockError => true
  | .released => true
  | .sinkErr _ => false
  | .strategyErr _ => false

/-- A single-shot promise slot: `pending` while the resolve/reject
capabilities are still held, otherwise settled.  A rejection payload is an
optional error because JS promises may be rejected with `undefined`. -/
inductive PSlot
  | pending
  | resolved
  | rejected (e : Option Err)
deriving DecidableEq

/-- The per-writer promise pair (`_readyPromise`, `_closedPromise`). -/
structure WriterState where
  readyP : PSlot
  closedP : PSlot
deriving DecidableEq

/-- `_pendingAbortRequest`: the promise id handed back to the aborter and the
abort reason. -/
structure PendingAbort where
  id : Nat
  reason : Nat
deriving DecidableEq

/-- A queue entry value: a write record `{chunk}` or the `'close'` sentinel. -/
inductive QVal
  | chunkRec (chunk : Nat)
  | closeSentinel
deriving DecidableEq

/-- One dispatched call to the underlying sink. -/
inductive SinkOp
  | start
  | write (chunk : Nat)
  | close
  | abort (reason : Nat)
deriving DecidableEq

/-- The settlement of a per-request promise. -/
inductive SettleOutcome
  | resolvedUndef
  | rejected (e : Option Err)
deriving DecidableEq

/-- The immediate result of an async entry point: an already-resolved promise,
an already-rejected promise, or a still-pending promise identified by a
request id. -/
inductive CallResult
  | resolvedUndef
  | rejectedWith (e : Option Err)
  | pendingReq (id : Nat)
deriving DecidableEq

/-- The whole stream/controller/writer state.  Fields mirror the `_`-prefixed
slots of the source classes; `sinkLog`, `settlements`, `sinkAbortWaiters` and
`nextId` are the embedding's observation devices described in the header. -/
structure WritableStream where
  state : SState
  storedError : Option Err
  writer : Option WriterState
  writeRequests : List Nat
  inflightWriteRequest : Option Nat
  closeRequest : Option Nat
  inflightCloseRequest : Option Nat
  pendingAbortRequest : Option PendingAbort
  backpressure : Option Bool
  queue : List (QVal × Int)
  started : Bool
  strategyHWM : Int
  sinkLog : List SinkOp
  settlements : List (Nat × SettleOutcome)
  sinkAbortWaiters : List Nat
  nextId : Nat
deriving DecidableEq

/-- Record the settlement of the request promise `id`. -/
def settleReq (s : WritableStream) (id : Nat) (o : SettleOutcome) : WritableStream :=
  { s with settlements := s.settlements ++ [(id, o)] }

/-! ### queue-with-sizes.js (not under src/, modelled from the spec) -/

/-- Modelled from the spec: `GetTotalQueueSize` of the missing
`queue-with-sizes.js` — the sum of the sizes of all current records. -/
def GetTotalQueueSize (queue : List (QVal × Int)) : Int :=
  (queue.map Prod.snd).sum

/-- Modelled from the spec: `EnqueueValueWithSize` of the missing
`queue-with-sizes.js` — appends a `{value, size}` record and fails with an
invalid-size error when the size is negative (NaN and non-finite sizes have no
integer representative, so negativity is the only representable failure). -/
def EnqueueValueWithSize (queue : List (QVal × Int)) (value : QVal) (size : Int) :
    Except Err (List (QVal × Int)) :=
  if size < 0 then .error .invalidSize else .ok (queue ++ [(value, size)])

/-- Modelled from the spec: `PeekQueueValue` of the missing
`queue-with-sizes.js` — the head value without mutation. -/
def PeekQueueValue (queue : List (QVal × Int)) : Option QVal :=
  queue.head?.map Prod.fst

/-- Modelled from the spec: `DequeueValue` of the missing
`queue-with-sizes.js` — removes the head record. -/
def DequeueValue (queue : List (QVal × Int)) : List (QVal × Int) :=
  queue.tail

/-! ### Per-writer promise helpers (`defaultWriter...Promise...`) -/

/-- `defaultWriterClosedPromiseReject`: asserts the capabilities are present
(slot pending), then rejects. -/
def defaultWriterClosedPromiseReject (w : WriterState) (e : Option Err) : Option WriterState :=
  match w.closedP with
  | .pending => some { w with closedP := .rejected e }
  | _ => none

/-- `defaultWriterClosedPromiseResetToRejected`: asserts the capabilities are
absent (slot settled), then replaces the slot with a rejected promise. -/
def defaultWriterClosedPromiseResetToRejected (w : WriterState) (e : Option Err) :
    Option WriterState :=
  match w.closedP with
  | .pending => none
  | _ => some { w with closedP := .rejected e }

/-- `defaultWriterClosedPromiseResolve`: asserts pending, then resolves. -/
def defaultWriterClosedPromiseResolve (w : WriterState) : Option WriterState :=
  match w.closedP with
  | .pending => some { w with closedP := .resolved }
  | _ => none

/-- `defaultWriterReadyPromiseReject`: asserts pending, then rejects. -/
def defaultWriterReadyPromiseReject (w : WriterState) (e : Option Err) : Option WriterState :=
  match w.readyP with
  | .pending => some { w with readyP := .rejected e }
  | _ => none

/-- `defaultWriterReadyPromiseReset`: asserts settled, then installs a fresh
pending promise. -/
def defaultWriterReadyPromiseReset (w : WriterState) : Option WriterState :=
  match w.readyP with
  | .pending => none
  | _ => some { w with readyP := .pending }

/-- `defaultWriterReadyPromiseResetToRejected`: asserts settled, then installs
a rejected promise. -/
def defaultWriterReadyPromiseResetToRejected (w : WriterState) (e : Option Err) :
    Option WriterState :=
  match w.readyP with
  | .pending => none
  | _ => some { w with readyP := .rejected e }

/-- `defaultWriterReadyPromiseResolve`: asserts pending, then resolves. -/
def defaultWriterReadyPromiseResolve (w : WriterState) : Option WriterState :=
  match w.readyP with
  | .pending => some { w with readyP := .resolved }
  | _ => none

/-! ### WritableStream abstract operations -/

/-- `IsWritableStreamLocked`: a writer is attached. -/
def IsWritableStreamLocked (s : WritableStream) : Bool :=
  s.writer ≠ none

/-- `WritableStreamIsReadyForWrites`. -/
def WritableStreamIsReadyForWrites (s : WritableStream) : Bool :=
  s.state = .writable && s.pendingAbortRequest = none && s.closeRequest = none &&
    s.backpressure = some true

/-- `WritableStreamHasOperationMarkedInflight`. -/
def WritableStreamHasOperationMarkedInflight (s : WritableStream) : Bool :=
  !(s.inflightWriteRequest = none && s.inflightCloseRequest = none)

/-- `WritableStreamDefaultWriterEnsureReadyPromiseRejectedWith`: `isPending`
is the optional third argument (`undefined` when omitted). -/
def WritableStreamDefaultWriterEnsureReadyPromiseRejectedWith (s : WritableStream) (e : Err)
    (isPending : Option Bool) : Option WritableStream :=
  match s.writer with
  | none => some s
  | some w =>
    let p := isPending.getD (WritableStreamIsReadyForWrites s)
    if p then
      match defaultWriterReadyPromiseReject w (some e) with
      | some w' => some { s with writer := some w' }
      | none => none
    else
      match defaultWriterReadyPromiseResetToRejected w (some e) with
      | some w' => some { s with writer := some w' }
      | none => none

/-- `WritableStreamRejectClosedPromiseIfAny`. -/
def WritableStreamRejectClosedPromiseIfAny (s : WritableStream) : Option WritableStream :=
  match s.writer with
  | none => some s
  | some w =>
    match defaultWriterClosedPromiseReject w s.storedError with
    | some w' => some { s with writer := some w' }
    | none => none

/-- `WritableStreamRejectPendingAbortRequest`. -/
def WritableStreamRejectPendingAbortRequest (s : WritableStream) : WritableStream :=
  match s.pendingAbortRequest with
  | none => s
  | some pa =>
    let s' := settleReq s pa.id (.rejected s.storedError)
    { s' with pendingAbortRequest := none }

/-- `WritableStreamRejectPromisesInReactionToError`. -/
def WritableStreamRejectPromisesInReactionToError (s : WritableStream) : Option WritableStream :=
  if s.state ≠ .errored then none
  else
    let e := s.storedError
    let s₁ := s.writeRequests.foldl (fun acc id => settleReq acc id (.rejected e)) s
    let s₂ := { s₁ with writeRequests := [] }
    match s₂.closeRequest with
    | some cid =>
      if s₂.inflightCloseRequest ≠ none then none
      else
        let s₃ := settleReq s₂ cid (.rejected e)
        WritableStreamRejectClosedPromiseIfAny { s₃ with closeRequest := none }
    | none => WritableStreamRejectClosedPromiseIfAny s₂

/-- `WritableStreamUpdateBackpressure`. -/
def WritableStreamUpdateBackpressure (s : WritableStream) (backpressure : Bool) :
    Option WritableStream :=
  if s.state ≠ .writable then none
  else if s.closeRequest ≠ none then none
  else
    match s.writer with
    | some w =>
      if some backpressure ≠ s.backpressure then
        if backpressure then
          match defaultWriterReadyPromiseReset w with
          | some w' => some { s with writer := some w', backpressure := some backpressure }
          | none => none
        else
          match defaultWriterReadyPromiseResolve w with
          | some w' => some { s with writer := some w', backpressure := some backpressure }
          | none => none
      else some { s with backpressure := some backpressure }
    | none => some { s with backpressure := some backpressure }

/-- `WritableStreamFinishAbort`: moves to `errored` with a freshly allocated
`TypeError('Aborted')` and rejects pending promises. -/
def WritableStreamFinishAbort (s : WritableStream) : Option WritableStream :=
  let s₁ := { s with
    state := .errored
    storedError := some (.aborted s.nextId)
    nextId := s.nextId + 1 }
  WritableStreamRejectPromisesInReactionToError s₁

/-- `WritableStreamDefaultControllerAbort`: clears the queue and dispatches
`sink.abort(reason)`; the caller wires the returned promise. -/
def WritableStreamDefaultControllerAbort (s : WritableStream) (reason : Nat) : WritableStream :=
  { s with queue := [], sinkLog := s.sinkLog ++ [.abort reason] }

/-- `WritableStreamAbort`: the shared abort path (`writer.abort` reaches it
directly; the stream-level method adds a lock check).  The result describes
the promise handed back to the caller. -/
def WritableStreamAbort (s : WritableStream) (reason : Nat) :
    Option (WritableStream × CallResult) :=
  if s.state = .closed then some (s, .resolvedUndef)
  else if s.state = .errored then some (s, .rejectedWith s.storedError)
  else
    -- const error = new TypeError('Aborted')
    let eid := s.nextId
    let s₁ := { s with nextId := s.nextId + 1 }
    if s₁.pendingAbortRequest ≠ none then some (s₁, .rejectedWith (some (.aborted eid)))
    else if s₁.state ≠ .writable then none
    else
      match WritableStreamDefaultWriterEnsureReadyPromiseRejectedWith s₁ (.aborted eid) none with
      | none => none
      | some s₂ =>
        if WritableStreamHasOperationMarkedInflight s₂ = false then
          match WritableStreamFinishAbort s₂ with
          | none => none
          | some s₃ =>
            let aid := s₃.nextId
            let s₄ := { s₃ with nextId := s₃.nextId + 1 }
            let s₅ := WritableStreamDefaultControllerAbort s₄ reason
            some ({ s₅ with sinkAbortWaiters := s₅.sinkAbortWaiters ++ [aid] }, .pendingReq aid)
        else
          let pid := s₂.nextId
          let s₃ := { s₂ with
            nextId := s₂.nextId + 1
            pendingAbortRequest := some ⟨pid, reason⟩ }
          some (s₃, .pendingReq pid)

/-- `WritableStream.prototype.abort`: the stream-level surface, which rejects
with a lock error while a writer is attached. -/
def WritableStreamAbortMethod (s : WritableStream) (reason : Nat) :
    Option (WritableStream × CallResult) :=
  if IsWritableStreamLocked s then some (s, .rejectedWith (some .streamLockedAbort))
  else WritableStreamAbort s reason

/-- `WritableStreamAddWriteRequest`: allocates a write-request promise. -/
def WritableStreamAddWriteRequest (s : WritableStream) : Option (WritableStream × Nat) :=
  if s.writer = none then none
  else if s.state ≠ .writable then none
  else
    let id := s.nextId
    some ({ s with nextId := id + 1, writeRequests := s.writeRequests ++ [id] }, id)

/-- `WritableStreamFinishInflightWrite`. -/
def WritableStreamFinishInflightWrite (s : WritableStream) : Option WritableStream :=
  match s.inflightWriteRequest with
  | none => none
  | some wid =>
    let s₁ := { settleReq s wid .resolvedUndef with inflightWriteRequest := none }
    if s₁.state = .errored then
      WritableStreamRejectPromisesInReactionToError (WritableStreamRejectPendingAbortRequest s₁)
    else
      match s₁.pendingAbortRequest with
      | none => some s₁
      | some pa =>
        match WritableStreamFinishAbort s₁ with
        | none => none
        | some s₂ =>
          let s₃ := { s₂ with pendingAbortRequest := none }
          let s₄ := WritableStreamDefaultControllerAbort s₃ pa.reason
          some { s₄ with sinkAbortWaiters := s₄.sinkAbortWaiters ++ [pa.id] }

/-- `WritableStreamFinishInflightWriteWithError`. -/
def WritableStreamFinishInflightWriteWithError (s : WritableStream) (reason : Err) :
    Option WritableStream :=
  match s.inflightWriteRequest with
  | none => none
  | some wid =>
    let s₁ := { settleReq s wid (.rejected (some reason)) with inflightWriteRequest := none }
    let wasAborted := s₁.pendingAbortRequest ≠ none
    let isReadyForWrites := WritableStreamIsReadyForWrites s₁
    if s₁.state = .errored then
      WritableStreamRejectPromisesInReactionToError (WritableStreamRejectPendingAbortRequest s₁)
    else if s₁.state ≠ .writable then none
    else
      let s₂ := { s₁ with state := .errored, storedError := some reason }
      let next :=
        if wasAborted then some s₂
        else WritableStreamDefaultWriterEnsureReadyPromiseRejectedWith s₂ reason
          (some isReadyForWrites)
      match next with
      | none => none
      | some s₃ =>
        WritableStreamRejectPromisesInReactionToError (WritableStreamRejectPendingAbortRequest s₃)

/-- `WritableStreamFinishInflightClose`. -/
def WritableStreamFinishInflightClose (s : WritableStream) : Option WritableStream :=
  match s.inflightCloseRequest with
  | none => none
  | some cid =>
    let s₁ := { settleReq s cid .resolvedUndef with inflightCloseRequest := none }
    let wasAborted := s₁.pendingAbortRequest ≠ none
    if s₁.state = .errored then
      WritableStreamRejectClosedPromiseIfAny (WritableStreamRejectPendingAbortRequest s₁)
    else if s₁.state ≠ .writable then none
    else if wasAborted = false then
      match s₁.writer with
      | some w =>
        match defaultWriterClosedPromiseResolve w with
        | some w' => some { s₁ with writer := some w', state := .closed }
        | none => none
      | none => some { s₁ with state := .closed }
    else
      match s₁.pendingAbortRequest with
      | some pa =>
        let s₂ := settleReq s₁ pa.id .resolvedUndef
        let s₃ := { s₂ with
          pendingAbortRequest := none
          state := .errored
          storedError := some .abortClosed }
        WritableStreamRejectClosedPromiseIfAny s₃
      | none => none

/-- `WritableStreamFinishInflightCloseWithError`. -/
def WritableStreamFinishInflightCloseWithError (s : WritableStream) (reason : Err) :
    Option WritableStream :=
  match s.inflightCloseRequest with
  | none => none
  | some cid =>
    let s₁ := { settleReq s cid (.rejected (some reason)) with inflightCloseRequest := none }
    let wasAborted := s₁.pendingAbortRequest ≠ none
    if s₁.state = .errored then
      WritableStreamRejectClosedPromiseIfAny (WritableStreamRejectPendingAbortRequest s₁)
    else if s₁.state ≠ .writable then none
    else
      let s₂ := { s₁ with state := .errored, storedError := some reason }
      let next :=
        if wasAborted then some s₂
        else WritableStreamDefaultWriterEnsureReadyPromiseRejectedWith s₂ reason (some false)
      match next with
      | none => none
      | some s₃ =>
        WritableStreamRejectClosedPromiseIfAny (WritableStreamRejectPendingAbortRequest s₃)

/-- `WritableStreamMarkCloseRequestInflight`. -/
def WritableStreamMarkCloseRequestInflight (s : WritableStream) : Option WritableStream :=
  if s.inflightCloseRequest ≠ none then none
  else
    match s.closeRequest with
    | none => none
    | some cid => some { s with inflightCloseRequest := some cid, closeRequest := none }

/-- `WritableStreamMarkFirstWriteRequestInflight`. -/
def WritableStreamMarkFirstWriteRequestInflight (s : WritableStream) : Option WritableStream :=
  if s.inflightWriteRequest ≠ none then none
  else
    match s.writeRequests with
    | [] => none
    | id :: rest => some { s with inflightWriteRequest := some id, writeRequests := rest }

/-! ### WritableStreamDefaultController operations -/

/-- `WritableStreamDefaultControllerGetDesiredSize`. -/
def WritableStreamDefaultControllerGetDesiredSize (s : WritableStream) : Int :=
  s.strategyHWM - GetTotalQueueSize s.queue

/-- `WritableStreamDefaultControllerGetBackpressure`. -/
def WritableStreamDefaultControllerGetBackpressure (s : WritableStream) : Bool :=
  WritableStreamDefaultControllerGetDesiredSize s ≤ 0

/-- `WritableStreamDefaultControllerProcessClose`: synchronous part up to and
including the dispatch of `sink.close`; the settlement is a separate
transition. -/
def WritableStreamDefaultControllerProcessClose (s : WritableStream) : Option WritableStream :=
  match WritableStreamMarkCloseRequestInflight s with
  | none => none
  | some s₁ =>
    let s₂ := { s₁ with queue := DequeueValue s₁.queue }
    if s₂.queue ≠ [] then none
    else some { s₂ with sinkLog := s₂.sinkLog ++ [.close] }

/-- `WritableStreamDefaultControllerProcessWrite`: synchronous part up to and
including the dispatch of `sink.write(chunk)`. -/
def WritableStreamDefaultControllerProcessWrite (s : WritableStream) (chunk : Nat) :
    Option WritableStream :=
  match WritableStreamMarkFirstWriteRequestInflight s with
  | none => none
  | some s₁ => some { s₁ with sinkLog := s₁.sinkLog ++ [.write chunk] }

/-- `WritableStreamDefaultControllerAdvanceQueueIfNeeded`. -/
def WritableStreamDefaultControllerAdvanceQueueIfNeeded (s : WritableStream) :
    Option WritableStream :=
  if s.state = .closed ∨ s.state = .errored then some s
  else if s.started = false then some s
  else if s.inflightWriteRequest ≠ none then some s
  else
    match PeekQueueValue s.queue with
    | none => some s
    | some .closeSentinel => WritableStreamDefaultControllerProcessClose s
    | some (.chunkRec c) => WritableStreamDefaultControllerProcessWrite s c

/-- `WritableStreamDefaultControllerError` (the abstract operation used by
clients to bypass the state check; asserts the stream is writable). -/
def WritableStreamDefaultControllerError (s : WritableStream) (e : Err) :
    Option WritableStream :=
  if s.state ≠ .writable then none
  else
    let isReadyForWrites := WritableStreamIsReadyForWrites s
    let s₁ := { s with state := .errored, storedError := some e }
    let next :=
      if s₁.pendingAbortRequest = none then
        WritableStreamDefaultWriterEnsureReadyPromiseRejectedWith s₁ e (some isReadyForWrites)
      else some s₁
    match next with
    | none => none
    | some s₂ =>
      let s₃ := { s₂ with queue := [] }
      if WritableStreamHasOperationMarkedInflight s₃ = false then
        WritableStreamRejectPromisesInReactionToError s₃
      else some s₃

/-- `WritableStreamDefaultControllerErrorIfNeeded`. -/
def WritableStreamDefaultControllerErrorIfNeeded (s : WritableStream) (e : Err) :
    Option WritableStream :=
  if s.state = .writable then WritableStreamDefaultControllerError s e else some s

/-- `WritableStreamDefaultController.prototype.error`: the public method,
which throws (leaving the state unchanged) when the stream is closed or
errored. -/
def WritableStreamDefaultControllerErrorMethod (s : WritableStream) (e : Err) :
    Option WritableStream :=
  if s.state = .closed ∨ s.state = .errored then some s
  else WritableStreamDefaultControllerError s e

/-- `WritableStreamDefaultControllerClose`: enqueues the `'close'` sentinel
with size 0 and advances. -/
def WritableStreamDefaultControllerClose (s : WritableStream) : Option WritableStream :=
  match EnqueueValueWithSize s.queue .closeSentinel 0 with
  | .error _ => none
  | .ok q => WritableStreamDefaultControllerAdvanceQueueIfNeeded { s with queue := q }

/-- `WritableStreamDefaultControllerWrite`: `sizeRes` is the outcome of the
external strategy size function (`.ok 1` when no size function is present,
`.error e` when it threw `e`). -/
def WritableStreamDefaultControllerWrite (s : WritableStream) (chunk : Nat)
    (sizeRes : Except Err Int) : Option WritableStream :=
  match sizeRes with
  | .error e => WritableStreamDefaultControllerErrorIfNeeded s e
  | .ok chunkSize =>
    match EnqueueValueWithSize s.queue (.chunkRec chunk) chunkSize with
    | .error e => WritableStreamDefaultControllerErrorIfNeeded s e
    | .ok q =>
      let s₁ := { s with queue := q }
      let next :=
        if s₁.state = .writable ∧ s₁.closeRequest = none then
          WritableStreamUpdateBackpressure s₁ (WritableStreamDefaultControllerGetBackpressure s₁)
        else some s₁
      match next with
      | none => none
      | some s₂ => WritableStreamDefaultControllerAdvanceQueueIfNeeded s₂

/-! ### WritableStreamDefaultWriter operations -/

/-- `WritableStreamDefaultWriter` constructor (via
`AcquireWritableStreamDefaultWriter`): throws a type error when the stream is
already locked, otherwise attaches a writer whose `ready`/`closed` promises
are initialized from the stream's state. -/
def AcquireWritableStreamDefaultWriter (s : WritableStream) : Except Err WritableStream :=
  if IsWritableStreamLocked s then .error .alreadyLocked
  else
    let w : WriterState :=
      if s.state = .writable then
        if s.pendingAbortRequest ≠ none then
          { readyP := .rejected s.storedError, closedP := .pending }
        else if s.closeRequest = none ∧ s.backpressure = some true then
          { readyP := .pending, closedP := .pending }
        else
          { readyP := .resolved, closedP := .pending }
      else if s.state = .closed then
        { readyP := .resolved, closedP := .resolved }
      else
        { readyP := .rejected s.storedError, closedP := .rejected s.storedError }
    .ok { s with writer := some w }

/-- `WritableStreamDefaultWriterGetDesiredSize`. -/
def WritableStreamDefaultWriterGetDesiredSize (s : WritableStream) : Option Int :=
  if s.state = .errored ∨ s.pendingAbortRequest ≠ none then none
  else if s.state = .closed then some 0
  else some (WritableStreamDefaultControllerGetDesiredSize s)

/-- `WritableStreamDefaultWriter.prototype.desiredSize` getter: throws a lock
error when the writer has been released (`_ownerWritableStream` is
undefined), otherwise returns the desired size (`none` models JS `null`). -/
def WritableStreamDefaultWriterDesiredSizeGetter (s : WritableStream) (released : Bool) :
    Except Err (Option Int) :=
  if released then .error .lockError
  else .ok (WritableStreamDefaultWriterGetDesiredSize s)

/-- `WritableStreamDefaultWriterClose`. -/
def WritableStreamDefaultWriterClose (s : WritableStream) :
    Option (WritableStream × CallResult) :=
  if s.state = .closed ∨ s.state = .errored then
    some (s, .rejectedWith (some (.notWritableClose s.state)))
  else if s.pendingAbortRequest ≠ none then
    some ({ s with nextId := s.nextId + 1 }, .rejectedWith (some (.aborted s.nextId)))
  else if s.state ≠ .writable then none
  else if s.closeRequest ≠ none then none
  else
    let cid := s.nextId
    let s₁ := { s with nextId := cid + 1, closeRequest := some cid }
    let next :=
      if s₁.backpressure = some true then
        match s₁.writer with
        | some w =>
          match defaultWriterReadyPromiseResolve w with
          | some w' => some { s₁ with writer := some w' }
          | none => none
        | none => none
      else some s₁
    match next with
    | none => none
    | some s₂ =>
      match WritableStreamDefaultControllerClose s₂ with
      | none => none
      | some s₃ => some (s₃, .pendingReq cid)

/-- `WritableStreamDefaultWriter.prototype.close`: rejects with an
already-closing error when a close request is present, then defers to
`WritableStreamDefaultWriterClose`.  The transition-system form requires an
attached writer (the method is invoked on it). -/
def WritableStreamDefaultWriterCloseMethod (s : WritableStream) :
    Option (WritableStream × CallResult) :=
  if s.writer = none then none
  else if s.closeRequest ≠ none then some (s, .rejectedWith (some .alreadyClosing))
  else WritableStreamDefaultWriterClose s

/-- `WritableStreamDefaultWriterWrite`. -/
def WritableStreamDefaultWriterWrite (s : WritableStream) (chunk : Nat)
    (sizeRes : Except Err Int) : Option (WritableStream × CallResult) :=
  if s.closeRequest ≠ none then none
  else if s.state = .closed ∨ s.state = .errored then
    some (s, .rejectedWith (some (.notWritableWrite s.state)))
  else if s.pendingAbortRequest ≠ none then
    some ({ s with nextId := s.nextId + 1 }, .rejectedWith (some (.aborted s.nextId)))
  else if s.state ≠ .writable then none
  else
    match WritableStreamAddWriteRequest s with
    | none => none
    | some (s₁, wid) =>
      match WritableStreamDefaultControllerWrite s₁ chunk sizeRes with
      | none => none
      | some s₂ => some (s₂, .pendingReq wid)

/-- `WritableStreamDefaultWriter.prototype.write`: rejects when a close
request is present, then defers to `WritableStreamDefaultWriterWrite`. -/
def WritableStreamDefaultWriterWriteMethod (s : WritableStream) (chunk : Nat)
    (sizeRes : Except Err Int) : Option (WritableStream × CallResult) :=
  if s.writer = none then none
  else if s.closeRequest ≠ none then some (s, .rejectedWith (some .writeAfterClose))
  else WritableStreamDefaultWriterWrite s chunk sizeRes

/-- `WritableStreamDefaultWriterRelease`. -/
def WritableStreamDefaultWriterRelease (s : WritableStream) : Option WritableStream :=
  if s.writer = none then none
  else
    match WritableStreamDefaultWriterEnsureReadyPromiseRejectedWith s .released none with
    | none => none
    | some s₁ =>
      match s₁.writer with
      | none => none
      | some w =>
        let next :=
          if s₁.state = .writable ∨ WritableStreamHasOperationMarkedInflight s₁ = true then
            defaultWriterClosedPromiseReject w (some .released)
          else
            defaultWriterClosedPromiseResetToRejected w (some .released)
        match next with
        | none => none
        | some _ => some { s₁ with writer := none }

/-! ### Construction and start -/

/-- The `WritableStream` constructor with the controller construction
inlined: `sinkHasType` models `underlyingSink.type !== undefined` (which the
source rejects with `RangeError('Invalid type is specified')`); the
high-water-mark validation of `ValidateAndNormalizeQueuingStrategy`
(`helpers.js`, not under src/) is modelled from the spec as requiring a
non-negative number.  The controller constructor publishes the initial
backpressure and `WritableStreamDefaultControllerStart` dispatches
`sink.start`. -/
def WritableStreamConstruct (sinkHasType : Bool) (highWaterMark : Int) :
    Except Err WritableStream :=
  if sinkHasType then .error .invalidType
  else if highWaterMark < 0 then .error .invalidHWM
  else
    .ok {
      state := .writable
      storedError := none
      writer := none
      writeRequests := []
      inflightWriteRequest := none
      closeRequest := none
      inflightCloseRequest := none
      pendingAbortRequest := none
      backpressure := some (decide (highWaterMark - GetTotalQueueSize [] ≤ 0))
      queue := []
      started := false
      strategyHWM := highWaterMark
      sinkLog := [.start]
      settlements := []
      sinkAbortWaiters := []
      nextId := 0 }

/-! ### The transition system

Each operation is one synchronous task of the source: a producer-facing call,
or the continuation run when a dispatched sink operation settles. -/

/-- Fulfilment continuation of `sink.start` inside
`WritableStreamDefaultControllerStart`. -/
def StartFulfilledStep (s : WritableStream) : Option WritableStream :=
  WritableStreamDefaultControllerAdvanceQueueIfNeeded { s with started := true }

/-- Rejection continuation of `sink.start` inside
`WritableStreamDefaultControllerStart`. -/
def StartRejectedStep (s : WritableStream) (r : Err) : Option WritableStream :=
  WritableStreamDefaultControllerErrorIfNeeded s r

/-- Fulfilment continuation of `sink.write` inside
`WritableStreamDefaultControllerProcessWrite`. -/
def SinkWriteFulfilledStep (s : WritableStream) : Option WritableStream :=
  match WritableStreamFinishInflightWrite s with
  | none => none
  | some s₁ =>
    if s₁.state = .errored then some s₁
    else if s₁.state ≠ .writable then none
    else
      let s₂ := { s₁ with queue := DequeueValue s₁.queue }
      let next :=
        if s₂.closeRequest = none then
          WritableStreamUpdateBackpressure s₂ (WritableStreamDefaultControllerGetBackpressure s₂)
        else some s₂
      match next with
      | none => none
      | some s₃ => WritableStreamDefaultControllerAdvanceQueueIfNeeded s₃

/-- Rejection continuation of `sink.write` inside
`WritableStreamDefaultControllerProcessWrite`. -/
def SinkWriteRejectedStep (s : WritableStream) (reason : Err) : Option WritableStream :=
  let wasErrored := s.state = .errored
  match WritableStreamFinishInflightWriteWithError s reason with
  | none => none
  | some s₁ =>
    if s₁.state ≠ .errored then none
    else if wasErrored = false then some { s₁ with queue := [] }
    else some s₁

/-- Fulfilment continuation of `sink.close` inside
`WritableStreamDefaultControllerProcessClose`. -/
def SinkCloseFulfilledStep (s : WritableStream) : Option WritableStream :=
  WritableStreamFinishInflightClose s

/-- Rejection continuation of `sink.close` inside
`WritableStreamDefaultControllerProcessClose`. -/
def SinkCloseRejectedStep (s : WritableStream) (reason : Err) : Option WritableStream :=
  WritableStreamFinishInflightCloseWithError s reason

/-- Settlement of a dispatched `sink.abort`: fulfils every waiting abort
promise with undefined (`sinkAbortPromise.then(() => undefined)`). -/
def SinkAbortFulfilledStep (s : WritableStream) : Option WritableStream :=
  if s.sinkAbortWaiters = [] then none
  else
    let s₁ := s.sinkAbortWaiters.foldl (fun acc id => settleReq acc id .resolvedUndef) s
    some { s₁ with sinkAbortWaiters := [] }

/-- Settlement of a dispatched `sink.abort` by rejection: forwards the
rejection to every waiting abort promise. -/
def SinkAbortRejectedStep (s : WritableStream) (reason : Err) : Option WritableStream :=
  if s.sinkAbortWaiters = [] then none
  else
    let s₁ := s.sinkAbortWaiters.foldl
      (fun acc id => settleReq acc id (.rejected (some reason))) s
    some { s₁ with sinkAbortWaiters := [] }

/-- `WritableStream.prototype.getWriter` as a transition: when the stream is
locked the call throws and the state is unchanged. -/
def GetWriterStep (s : WritableStream) : Option WritableStream :=
  match AcquireWritableStreamDefaultWriter s with
  | .ok s' => some s'
  | .error _ => some s

/-- `writer.abort(reason)` as a transition (requires an attached writer;
forwards to `WritableStreamAbort`, bypassing the stream-level lock check). -/
def WriterAbortStep (s : WritableStream) (reason : Nat) : Option WritableStream :=
  if s.writer = none then none
  else (WritableStreamAbort s reason).map Prod.fst

deriving instance DecidableEq for Except

/-- One synchronous task of the system. -/
inductive Op
  | getWriter
  | writerWrite (chunk : Nat) (sizeRes : Except Err Int)
  | writerClose
  | writerAbort (reason : Nat)
  | streamAbort (reason : Nat)
  | writerRelease
  | controllerError (e : Err)
  | startFulfilled
  | startRejected (e : Err)
  | sinkWriteFulfilled
  | sinkWriteRejected (e : Err)
  | sinkCloseFulfilled
  | sinkCloseRejected (e : Err)
  | sinkAbortFulfilled
  | sinkAbortRejected (e : Err)
deriving DecidableEq

/-- The step function of the transition system. -/
def step : Op → WritableStream → Option WritableStream
  | .getWriter, s => GetWriterStep s
  | .writerWrite chunk sizeRes, s =>
    (WritableStreamDefaultWriterWriteMethod s chunk sizeRes).map Prod.fst
  | .writerClose, s => (WritableStreamDefaultWriterCloseMethod s).map Prod.fst
  | .writerAbort reason, s => WriterAbortStep s reason
  | .streamAbort reason, s => (WritableStreamAbortMethod s reason).map Prod.fst
  | .writerRelease, s => WritableStreamDefaultWriterRelease s
  | .controllerError e, s => WritableStreamDefaultControllerErrorMethod s e
  | .startFulfilled, s => StartFulfilledStep s
  | .startRejected e, s => StartRejectedStep s e
  | .sinkWriteFulfilled, s => SinkWriteFulfilledStep s
  | .sinkWriteRejected e, s => SinkWriteRejectedStep s e
  | .sinkCloseFulfilled, s => SinkCloseFulfilledStep s
  | .sinkCloseRejected e, s => SinkCloseRejectedStep s e
  | .sinkAbortFulfilled, s => SinkAbortFulfilledStep s
  | .sinkAbortRejected e, s => SinkAbortRejectedStep s e

/-- Run a sequence of operations. -/
def steps : List Op → WritableStream → Option WritableStream
  | [], s => some s
  | op :: rest, s =>
    match step op s with
    | none => none
    | some s' => steps rest s'

/-! ### Invariant machinery -/

/-- The projection of the state that the safety invariants depend on. -/
structure InvView where
  vstate : SState
  vcloseRequest : Option Nat
  vinflightClose : Option Nat
  vpendingAbort : Option PendingAbort
  vbackpressure : Option Bool
  vqueue : List (QVal × Int)
  vhwm : Int
  vready : Option PSlot
deriving DecidableEq

/-- Project the invariant-relevant view of a stream state. -/
def view (s : WritableStream) : InvView :=
  ⟨s.state, s.closeRequest, s.inflightCloseRequest, s.pendingAbortRequest,
    s.backpressure, s.queue, s.strategyHWM, s.writer.map WriterState.readyP⟩

/-- State monotonicity: either the source state was `writable`, or the state
is unchanged.  Equivalently, `closed` and `errored` are absorbing. -/
def stateMono (a b : SState) : Prop := a = .writable ∨ b = a

theorem stateMono_refl (a : SState) : stateMono a a := Or.inr rfl

theorem stateMono_trans {a b c : SState} (h₁ : stateMono a b) (h₂ : stateMono b c) :
    stateMono a c := by
  rcases h₁ with h₁ | h₁
  · exact Or.inl h₁
  · rcases h₂ with h₂ | h₂
    · exact Or.inl (h₁ ▸ h₂)
    · exact Or.inr (h₂.trans h₁)

/-- Auxiliary invariant: a closed stream has no pending abort request. -/
def ClosedNoPA (s : WritableStream) : Prop :=
  s.state = .closed → s.pendingAbortRequest = none

/-- No close and no abort has been requested, and the stream is writable. -/
def Quiet (s : WritableStream) : Prop :=
  s.state = .writable ∧ s.closeRequest = none ∧ s.inflightCloseRequest = none ∧
    s.pendingAbortRequest = none

/-- The stored backpressure flag matches the queue contents, and the writer's
`ready` promise is pending exactly when backpressure is signalled. -/
def Linked (s : WritableStream) : Prop :=
  s.backpressure = some (WritableStreamDefaultControllerGetBackpressure s) ∧
  ∀ w, s.writer = some w → (w.readyP = PSlot.pending ↔ s.backpressure = some true)

/-- The safety invariant maintained by every transition. -/
def Inv (s : WritableStream) : Prop := ClosedNoPA s ∧ (Quiet s → Linked s)

theorem view_state {s s' : WritableStream} (h : view s' = view s) : s'.state = s.state :=
  congrArg InvView.vstate h

theorem view_closeRequest {s s' : WritableStream} (h : view s' = view s) :
    s'.closeRequest = s.closeRequest :=
  congrArg InvView.vcloseRequest h

theorem view_inflightClose {s s' : WritableStream} (h : view s' = view s) :
    s'.inflightCloseRequest = s.inflightCloseRequest :=
  congrArg InvView.vinflightClose h

theorem view_pendingAbort {s s' : WritableStream} (h : view s' = view s) :
    s'.pendingAbortRequest = s.pendingAbortRequest :=
  congrArg InvView.vpendingAbort h

theorem view_backpressure {s s' : WritableStream} (h : view s' = view s) :
    s'.backpressure = s.backpressure :=
  congrArg InvView.vbackpressure h

theorem view_queue {s s' : WritableStream} (h : view s' = view s) : s'.queue = s.queue :=
  congrArg InvView.vqueue h

theorem view_hwm {s s' : WritableStream} (h : view s' = view s) :
    s'.strategyHWM = s.strategyHWM :=
  congrArg InvView.vhwm h

theorem view_ready {s s' : WritableStream} (h : view s' = view s) :
    s'.writer.map WriterState.readyP = s.writer.map WriterState.readyP :=
  congrArg InvView.vready h

theorem getBackpressure_of_view {s s' : WritableStream} (h : view s' = view s) :
    WritableStreamDefaultControllerGetBackpressure s' =
      WritableStreamDefaultControllerGetBackpressure s := by
  simp [WritableStreamDefaultControllerGetBackpressure,
    WritableStreamDefaultControllerGetDesiredSize, view_queue h, view_hwm h]

theorem quiet_of_view {s s' : WritableStream} (h : view s' = view s) :
    Quiet s' ↔ Quiet s := by
  simp [Quiet, view_state h, view_closeRequest h, view_inflightClose h, view_pendingAbort h]

theorem linked_of_view {s s' : WritableStream} (h : view s' = view s) (hl : Linked s) :
    Linked s' := by
  refine ⟨?_, ?_⟩
  · rw [view_backpressure h, getBackpressure_of_view h]
    exact hl.1
  · intro w hw
    have hr := view_ready h
    rw [hw] at hr
    match hs : s.writer, hr' : s.writer.map WriterState.readyP with
    | some w₀, _ =>
      have : w.readyP = w₀.readyP := by
        rw [hs] at hr
        exact Option.some_injective _ (by simpa using hr)
      rw [view_backpressure h, this]
      exact hl.2 w₀ hs
    | none, _ =>
      rw [hs] at hr
      simp at hr

theorem inv_of_view {s s' : WritableStream} (h : view s' = view s) (hi : Inv s) : Inv s' := by
  refine ⟨?_, ?_⟩
  · intro hc
    rw [view_pendingAbort h]
    exact hi.1 (by rw [← view_state h]; exact hc)
  · intro hq
    exact linked_of_view h (hi.2 ((quiet_of_view h).mp hq))

/-- A state whose `state` field is not `writable`, or with a close request,
inflight close, or pending abort, is not `Quiet`. -/
theorem not_quiet_inv {s : WritableStream} (h : ¬ Quiet s) (hc : ClosedNoPA s) : Inv s :=
  ⟨hc, fun hq => absurd hq h⟩

/-! ### View and specification lemmas for the embedded functions -/

theorem view_settleReq (s : WritableStream) (i : Nat) (o : SettleOutcome) :
    view (settleReq s i o) = view s := rfl

theorem view_foldl_settleReq (l : List Nat) (o : Nat → SettleOutcome) (s : WritableStream) :
    view (l.foldl (fun acc id => settleReq acc id (o id)) s) = view s := by
  induction l generalizing s with
  | nil => rfl
  | cons a t ih => simpa [List.foldl] using ih (settleReq s a (o a))

theorem closedReject_spec {w w' : WriterState} {e : Option Err}
    (h : defaultWriterClosedPromiseReject w e = some w') :
    w.closedP = .pending ∧ w'.readyP = w.readyP ∧ w'.closedP = .rejected e := by
  unfold defaultWriterClosedPromiseReject at h
  split at h <;> simp_all <;> (subst h; simp)

theorem closedResetToRejected_spec {w w' : WriterState} {e : Option Err}
    (h : defaultWriterClosedPromiseResetToRejected w e = some w') :
    w.closedP ≠ .pending ∧ w'.readyP = w.readyP ∧ w'.closedP = .rejected e := by
  unfold defaultWriterClosedPromiseResetToRejected at h
  split at h <;> simp_all <;> (subst h; simp)

theorem closedResolve_spec {w w' : WriterState}
    (h : defaultWriterClosedPromiseResolve w = some w') :
    w.closedP = .pending ∧ w'.readyP = w.readyP ∧ w'.closedP = .resolved := by
  unfold defaultWriterClosedPromiseResolve at h
  split at h <;> simp_all <;> (subst h; simp)

theorem readyReject_spec {w w' : WriterState} {e : Option Err}
    (h : defaultWriterReadyPromiseReject w e = some w') :
    w.readyP = .pending ∧ w'.readyP = .rejected e ∧ w'.closedP = w.closedP := by
  unfold defaultWriterReadyPromiseReject at h
  split at h <;> simp_all <;> (subst h; simp)

theorem readyReset_spec {w w' : WriterState}
    (h : defaultWriterReadyPromiseReset w = some w') :
    w.readyP ≠ .pending ∧ w'.readyP = .pending ∧ w'.closedP = w.closedP := by
  unfold defaultWriterReadyPromiseReset at h
  split at h <;> simp_all <;> (subst h; simp)

theorem readyResetToRejected_spec {w w' : WriterState} {e : Option Err}
    (h : defaultWriterReadyPromiseResetToRejected w e = some w') :
    w.readyP ≠ .pending ∧ w'.readyP = .rejected e ∧ w'.closedP = w.closedP := by
  unfold defaultWriterReadyPromiseResetToRejected at h
  split at h <;> simp_all <;> (subst h; simp)

theorem readyResolve_spec {w w' : WriterState}
    (h : defaultWriterReadyPromiseResolve w = some w') :
    w.readyP = .pending ∧ w'.readyP = .resolved ∧ w'.closedP = w.closedP := by
  unfold defaultWriterReadyPromiseResolve at h
  split at h <;> simp_all <;> (subst h; simp)

theorem ensureReady_spec {s s' : WritableStream} {e : Err} {ip : Option Bool}
    (h : WritableStreamDefaultWriterEnsureReadyPromiseRejectedWith s e ip = some s') :
    (s.writer = none ∧ s' = s) ∨
    (∃ w, s.writer = some w ∧
      s' = { s with writer := some ⟨.rejected (some e), w.closedP⟩ }) := by
  rcases hw : s.writer with _ | w
  · left
    refine ⟨rfl, ?_⟩
    simp only [WritableStreamDefaultWriterEnsureReadyPromiseRejectedWith, hw,
      Option.some.injEq] at h
    exact h.symm
  · right
    refine ⟨w, rfl, ?_⟩
    simp only [WritableStreamDefaultWriterEnsureReadyPromiseRejectedWith, hw] at h
    by_cases hp : (ip.getD (WritableStreamIsReadyForWrites s)) = true
    · rw [if_pos hp] at h
      rcases heq : defaultWriterReadyPromiseReject w (some e) with _ | w' <;> rw [heq] at h
      · exact absurd h (by simp)
      · obtain ⟨-, h₁, h₂⟩ := readyReject_spec heq
        obtain rfl := Option.some_injective _ h
        cases w'
        simp_all
    · rw [if_neg hp] at h
      rcases heq : defaultWriterReadyPromiseResetToRejected w (some e) with _ | w' <;>
        rw [heq] at h
      · exact absurd h (by simp)
      · obtain ⟨-, h₁, h₂⟩ := readyResetToRejected_spec heq
        obtain rfl := Option.some_injective _ h
        cases w'
        simp_all

theorem rejectClosed_view {s s' : WritableStream}
    (h : WritableStreamRejectClosedPromiseIfAny s = some s') : view s' = view s := by
  unfold WritableStreamRejectClosedPromiseIfAny at h
  split at h
  next => simp_all
  next w hw =>
    split at h
    next w' heq =>
      obtain ⟨-, h₁, -⟩ := closedReject_spec heq
      cases h
      simp [view, hw, h₁]
    next => exact absurd h (by simp)

theorem rejectPendingAbort_view (s : WritableStream) :
    view (WritableStreamRejectPendingAbortRequest s) =
      { view s with vpendingAbort := none } := by
  unfold WritableStreamRejectPendingAbortRequest
  split
  next hpa => simp [view, hpa]
  next pa hpa => simp [view, settleReq]

theorem rpire_spec {s s' : WritableStream}
    (h : WritableStreamRejectPromisesInReactionToError s = some s') :
    s.state = .errored ∧ view s' = { view s with vcloseRequest := none } := by
  unfold WritableStreamRejectPromisesInReactionToError at h
  by_cases hst : s.state = .errored
  case neg =>
    rw [if_pos (by simpa using hst)] at h
    exact absurd h (by simp)
  case pos =>
    rw [if_neg (by simpa using hst)] at h
    refine ⟨hst, ?_⟩
    have hfold :
        view (s.writeRequests.foldl
          (fun acc id => settleReq acc id (.rejected s.storedError)) s) = view s :=
      view_foldl_settleReq s.writeRequests (fun _ => .rejected s.storedError) s
    dsimp only at h
    generalize hf : s.writeRequests.foldl
      (fun acc id => settleReq acc id (SettleOutcome.rejected s.storedError)) s = f at h
    rw [hf] at hfold
    rcases hcr : f.closeRequest with _ | cid <;> rw [hcr] at h <;> dsimp only at h
    · have hv := rejectClosed_view h
      rw [hv]
      simp only [view, InvView.mk.injEq] at hfold ⊢
      simp_all
    · by_cases hic : f.inflightCloseRequest = none
      · rw [if_neg (by simp [hic])] at h
        have hv := rejectClosed_view h
        rw [hv]
        simp only [view, settleReq, InvView.mk.injEq] at hfold ⊢
        simp_all
      · rw [if_pos (by simp [hic])] at h
        exact absurd h (by simp)

theorem updateBackpressure_spec {s s' : WritableStream} {bp : Bool}
    (h : WritableStreamUpdateBackpressure s bp = some s') :
    s.state = .writable ∧ s.closeRequest = none ∧
    s'.state = s.state ∧ s'.closeRequest = s.closeRequest ∧
    s'.inflightCloseRequest = s.inflightCloseRequest ∧
    s'.pendingAbortRequest = s.pendingAbortRequest ∧
    s'.queue = s.queue ∧ s'.strategyHWM = s.strategyHWM ∧
    s'.backpressure = some bp ∧
    (s.writer = none → s'.writer = none) ∧
    ((∀ w, s.writer = some w → (w.readyP = PSlot.pending ↔ s.backpressure = some true)) →
      ∀ w', s'.writer = some w' → (w'.readyP = PSlot.pending ↔ bp = true)) := by
  unfold WritableStreamUpdateBackpressure at h
  split at h
  next => exact absurd h (by simp)
  next hst =>
    split at h
    next => exact absurd h (by simp)
    next hcr =>
      rw [not_ne_iff] at hst hcr
      split at h
      next w hw =>
        split at h
        next hne =>
          split at h
          next hbp =>
            split at h
            next w' heq =>
              obtain ⟨-, h₁, -⟩ := readyReset_spec heq
              cases h
              simp_all
            next => exact absurd h (by simp)
          next hbp =>
            split at h
            next w' heq =>
              obtain ⟨-, h₁, -⟩ := readyResolve_spec heq
              cases h
              simp_all
            next => exact absurd h (by simp)
        next hne =>
          rw [not_ne_iff] at hne
          cases h
          refine ⟨hst, hcr, rfl, rfl, rfl, rfl, rfl, rfl, rfl, by simp_all, ?_⟩
          intro hlink w' hw'
          simp only [hw] at hw'
          have hww : w = w' := by simpa using hw'
          subst hww
          rw [hlink w hw, ← hne]
          simp
      next hw =>
        cases h
        exact ⟨hst, hcr, rfl, rfl, rfl, rfl, rfl, rfl, rfl, fun _ => hw, by simp_all⟩

theorem getTotal_append_zero (q : List (QVal × Int)) (v : QVal) :
    GetTotalQueueSize (q ++ [(v, 0)]) = GetTotalQueueSize q := by
  simp [GetTotalQueueSize]

theorem finishAbort_spec {s s' : WritableStream}
    (h : WritableStreamFinishAbort s = some s') :
    s'.state = .errored ∧ s'.pendingAbortRequest = s.pendingAbortRequest := by
  unfold WritableStreamFinishAbort at h
  dsimp only at h
  have hsp := rpire_spec h
  constructor
  · simpa [view] using congrArg InvView.vstate hsp.2
  · simpa [view] using congrArg InvView.vpendingAbort hsp.2

theorem controllerAbort_view (s : WritableStream) (r : Nat) :
    view (WritableStreamDefaultControllerAbort s r) = { view s with vqueue := [] } := by
  simp [WritableStreamDefaultControllerAbort, view]

theorem abort_invmono {s s' : WritableStream} {r : Nat} {res : CallResult}
    (hi : Inv s) (h : WritableStreamAbort s r = some (s', res)) :
    Inv s' ∧ stateMono s.state s'.state := by
  unfold WritableStreamAbort at h
  by_cases hc : s.state = .closed
  · rw [if_pos hc] at h
    simp only [Option.some.injEq, Prod.mk.injEq] at h
    obtain ⟨rfl, -⟩ := h
    exact ⟨hi, stateMono_refl _⟩
  · rw [if_neg hc] at h
    by_cases he : s.state = .errored
    · rw [if_pos he] at h
      simp only [Option.some.injEq, Prod.mk.injEq] at h
      obtain ⟨rfl, -⟩ := h
      exact ⟨hi, stateMono_refl _⟩
    · rw [if_neg he] at h
      have hw : s.state = .writable := by
        cases hs : s.state <;> simp_all
      dsimp only at h
      by_cases hpa : s.pendingAbortRequest = none
      · rw [if_neg (by simpa using hpa)] at h
        rw [if_neg (by simpa using hw)] at h
        rcases hen : WritableStreamDefaultWriterEnsureReadyPromiseRejectedWith
            { s with nextId := s.nextId + 1 } (.aborted s.nextId) none with _ | s₂ <;>
          rw [hen] at h
        · exact absurd h (by simp)
        · dsimp only at h
          have hs₂ : s₂.state = .writable ∧ s₂.pendingAbortRequest = none ∧
              s₂.inflightCloseRequest = s.inflightCloseRequest := by
            rcases ensureReady_spec hen with ⟨-, rfl⟩ | ⟨w, -, rfl⟩ <;>
              simp_all
          by_cases hin : WritableStreamHasOperationMarkedInflight s₂ = false
          · rw [if_pos hin] at h
            rcases hfa : WritableStreamFinishAbort s₂ with _ | s₃ <;> rw [hfa] at h
            · exact absurd h (by simp)
            · dsimp only at h
              simp only [Option.some.injEq, Prod.mk.injEq] at h
              obtain ⟨rfl, -⟩ := h
              have h₃ := finishAbort_spec hfa
              refine ⟨not_quiet_inv ?_ ?_, Or.inl hw⟩
              · intro hq
                simp only [Quiet, WritableStreamDefaultControllerAbort] at hq
                simp [h₃.1] at hq
              · intro hcl
                simp only [WritableStreamDefaultControllerAbort] at hcl
                simp [h₃.1] at hcl
          · rw [if_neg hin] at h
            simp only [Option.some.injEq, Prod.mk.injEq] at h
            obtain ⟨rfl, -⟩ := h
            refine ⟨not_quiet_inv ?_ ?_, Or.inl hw⟩
            · intro hq
              simp [Quiet] at hq
            · intro hcl
              simp [hs₂.1] at hcl
      · rw [if_pos (by simpa using hpa)] at h
        simp only [Option.some.injEq, Prod.mk.injEq] at h
        obtain ⟨rfl, -⟩ := h
        refine ⟨inv_of_view (by simp [view]) hi, Or.inr rfl⟩

theorem addWriteRequest_spec {s s' : WritableStream} {id : Nat}
    (h : WritableStreamAddWriteRequest s = some (s', id)) :
    view s' = view s ∧ s.state = .writable ∧ id = s.nextId := by
  unfold WritableStreamAddWriteRequest at h
  by_cases hw : s.writer = none
  · rw [if_pos hw] at h
    exact absurd h (by simp)
  · rw [if_neg hw] at h
    by_cases hst : s.state = .writable
    · rw [if_neg (by simpa using hst)] at h
      simp only [Option.some.injEq, Prod.mk.injEq] at h
      obtain ⟨rfl, rfl⟩ := h
      exact ⟨by simp [view], hst, rfl⟩
    · rw [if_pos (by simpa using hst)] at h
      exact absurd h (by simp)

theorem rpa_state (s : WritableStream) :
    (WritableStreamRejectPendingAbortRequest s).state = s.state := by
  simpa [view] using congrArg InvView.vstate (rejectPendingAbort_view s)

theorem rpire_state {s s' : WritableStream}
    (h : WritableStreamRejectPromisesInReactionToError s = some s') :
    s.state = .errored ∧ s'.state = s.state := by
  obtain ⟨h₁, h₂⟩ := rpire_spec h
  exact ⟨h₁, by simpa [view] using congrArg InvView.vstate h₂⟩

theorem rpa_rpire_state {s s' : WritableStream}
    (h : WritableStreamRejectPromisesInReactionToError
      (WritableStreamRejectPendingAbortRequest s) = some s') :
    s.state = .errored ∧ s'.state = s.state := by
  obtain ⟨h₁, h₂⟩ := rpire_state h
  rw [rpa_state] at h₁ h₂
  exact ⟨h₁, h₂⟩

theorem finishInflightWrite_spec {s s' : WritableStream}
    (h : WritableStreamFinishInflightWrite s = some s') :
    (s.state = .errored ∧ s'.state = .errored) ∨
    (view s' = view s ∧ s.pendingAbortRequest = none) ∨
    (s.state ≠ .errored ∧ s.pendingAbortRequest ≠ none ∧ s'.state = .errored) := by
  unfold WritableStreamFinishInflightWrite at h
  rcases hiw : s.inflightWriteRequest with _ | wid <;> rw [hiw] at h
  · exact absurd h (by simp)
  · dsimp only [settleReq] at h
    by_cases hst : s.state = .errored
    · rw [if_pos hst] at h
      obtain ⟨-, h₂⟩ := rpa_rpire_state h
      exact Or.inl ⟨hst, by simp_all⟩
    · rw [if_neg hst] at h
      rcases hpa : s.pendingAbortRequest with _ | pa <;> rw [hpa] at h <;> dsimp only at h
      · obtain rfl := Option.some_injective _ h
        exact Or.inr (Or.inl ⟨by simp [view, settleReq, hpa], by simp [hpa]⟩)
      · split at h
        next => exact absurd h (by simp)
        next s₂ hfa =>
          obtain rfl := Option.some_injective _ h
          have h₂ := finishAbort_spec hfa
          exact Or.inr (Or.inr ⟨hst, by simp [hpa],
            by simpa [WritableStreamDefaultControllerAbort] using h₂.1⟩)

theorem finishInflightWrite_invmono {s s' : WritableStream}
    (hi : Inv s) (h : WritableStreamFinishInflightWrite s = some s') :
    Inv s' ∧ stateMono s.state s'.state := by
  rcases finishInflightWrite_spec h with ⟨h₁, h₂⟩ | ⟨hv, -⟩ | ⟨h₁, h₂, h₃⟩
  · exact ⟨not_quiet_inv (by simp [Quiet, h₂]) (by simp [ClosedNoPA, h₂]),
      Or.inr (h₂.trans h₁.symm)⟩
  · exact ⟨inv_of_view hv hi, Or.inr (view_state hv)⟩
  · refine ⟨not_quiet_inv (by simp [Quiet, h₃]) (by simp [ClosedNoPA, h₃]), Or.inl ?_⟩
    cases hs : s.state
    · rfl
    · exact absurd (hi.1 hs) h₂
    · exact absurd hs h₁

theorem finishInflightWriteWithError_spec {s s' : WritableStream} {reason : Err}
    (h : WritableStreamFinishInflightWriteWithError s reason = some s') :
    (s.state = .errored ∨ s.state = .writable) ∧ s'.state = .errored := by
  unfold WritableStreamFinishInflightWriteWithError at h
  rcases hiw : s.inflightWriteRequest with _ | wid <;> rw [hiw] at h
  · exact absurd h (by simp)
  · dsimp only [settleReq] at h
    by_cases hst : s.state = .errored
    · rw [if_pos hst] at h
      obtain ⟨-, h₂⟩ := rpa_rpire_state h
      exact ⟨Or.inl hst, by simp_all⟩
    · rw [if_neg hst] at h
      by_cases hwr : s.state = .writable
      · rw [if_neg (by simpa using hwr)] at h
        refine ⟨Or.inr hwr, ?_⟩
        by_cases hpa : s.pendingAbortRequest = none
        · rw [if_neg (by simpa using hpa)] at h
          split at h
          next => exact absurd h (by simp)
          next s₃ hen =>
            obtain ⟨-, h₂⟩ := rpa_rpire_state h
            have hs₃ : s₃.state = .errored := by
              rcases ensureReady_spec hen with ⟨-, rfl⟩ | ⟨w, -, rfl⟩ <;> rfl
            simp_all
        · rw [if_pos (by simpa using hpa)] at h
          obtain ⟨-, h₂⟩ := rpa_rpire_state h
          simp_all
      · rw [if_pos (by simpa using hwr)] at h
        exact absurd h (by simp)

theorem finishInflightClose_spec {s s' : WritableStream}
    (h : WritableStreamFinishInflightClose s = some s') :
    (s.state = .errored ∧ s'.state = .errored) ∨
    (s.state = .writable ∧ s.pendingAbortRequest = none ∧ s'.state = .closed ∧
      s'.pendingAbortRequest = none) ∨
    (s.state = .writable ∧ s.pendingAbortRequest ≠ none ∧ s'.state = .errored) := by
  unfold WritableStreamFinishInflightClose at h
  rcases hic : s.inflightCloseRequest with _ | cid <;> rw [hic] at h
  · exact absurd h (by simp)
  · dsimp only [settleReq] at h
    by_cases hst : s.state = .errored
    · rw [if_pos hst] at h
      left
      refine ⟨hst, ?_⟩
      have hv := rejectClosed_view h
      have := congrArg InvView.vstate hv
      rw [rejectPendingAbort_view] at this
      simpa [view, hst] using this
    · rw [if_neg hst] at h
      by_cases hwr : s.state = .writable
      · rw [if_neg (by simpa using hwr)] at h
        by_cases hpa : s.pendingAbortRequest = none
        · rw [if_pos (by simp [hpa])] at h
          refine Or.inr (Or.inl ⟨hwr, hpa, ?_, ?_⟩) <;>
          · split at h
            next w hwrt =>
              split at h
              next w' hres =>
                obtain rfl := Option.some_injective _ h
                simp [hpa]
              next => exact absurd h (by simp)
            next hwrt =>
              obtain rfl := Option.some_injective _ h
              simp [hpa]
        · rw [if_neg (by simp [hpa])] at h
          rcases hpa' : s.pendingAbortRequest with _ | pa <;> rw [hpa'] at h
          · exact absurd hpa' hpa
          · dsimp only at h
            have hv := rejectClosed_view h
            refine Or.inr (Or.inr ⟨hwr, by simp [hpa'], ?_⟩)
            simpa [view, settleReq] using congrArg InvView.vstate hv
      · rw [if_pos (by simpa using hwr)] at h
        exact absurd h (by simp)

theorem finishInflightClose_invmono {s s' : WritableStream}
    (hi : Inv s) (h : WritableStreamFinishInflightClose s = some s') :
    Inv s' ∧ stateMono s.state s'.state := by
  rcases finishInflightClose_spec h with ⟨h₁, h₂⟩ | ⟨h₁, -, h₃, h₄⟩ | ⟨h₁, -, h₃⟩
  · exact ⟨not_quiet_inv (by simp [Quiet, h₂]) (by simp [ClosedNoPA, h₂]),
      Or.inr (h₂.trans h₁.symm)⟩
  · exact ⟨not_quiet_inv (by simp [Quiet, h₃]) (by simp [ClosedNoPA, h₄]), Or.inl h₁⟩
  · exact ⟨not_quiet_inv (by simp [Quiet, h₃]) (by simp [ClosedNoPA, h₃]), Or.inl h₁⟩

theorem finishInflightCloseWithError_spec {s s' : WritableStream} {reason : Err}
    (h : WritableStreamFinishInflightCloseWithError s reason = some s') :
    (s.state = .errored ∨ s.state = .writable) ∧ s'.state = .errored := by
  unfold WritableStreamFinishInflightCloseWithError at h
  rcases hic : s.inflightCloseRequest with _ | cid <;> rw [hic] at h
  · exact absurd h (by simp)
  · dsimp only [settleReq] at h
    by_cases hst : s.state = .errored
    · rw [if_pos hst] at h
      refine ⟨Or.inl hst, ?_⟩
      have hv := rejectClosed_view h
      have := congrArg InvView.vstate hv
      rw [rejectPendingAbort_view] at this
      simpa [view, hst] using this
    · rw [if_neg hst] at h
      by_cases hwr : s.state = .writable
      · rw [if_neg (by simpa using hwr)] at h
        refine ⟨Or.inr hwr, ?_⟩
        by_cases hpa : s.pendingAbortRequest = none
        · rw [if_neg (by simpa using hpa)] at h
          split at h
          next => exact absurd h (by simp)
          next s₃ hen =>
            have hs₃ : s₃.state = .errored := by
              rcases ensureReady_spec hen with ⟨-, rfl⟩ | ⟨w, -, rfl⟩ <;> rfl
            have hv := rejectClosed_view h
            have := congrArg InvView.vstate hv
            rw [rejectPendingAbort_view] at this
            simpa [view, hs₃] using this
        · rw [if_pos (by simpa using hpa)] at h
          have hv := rejectClosed_view h
          have := congrArg InvView.vstate hv
          rw [rejectPendingAbort_view] at this
          simpa [view] using this
      · rw [if_pos (by simpa using hwr)] at h
        exact absurd h (by simp)

theorem finishInflightCloseWithError_invmono {s s' : WritableStream}
    (hi : Inv s) (h : WritableStreamFinishInflightCloseWithError s reason = some s') :
    Inv s' ∧ stateMono s.state s'.state := by
  obtain ⟨h₁, h₂⟩ := finishInflightCloseWithError_spec h
  refine ⟨not_quiet_inv (by simp [Quiet, h₂]) (by simp [ClosedNoPA, h₂]), ?_⟩
  rcases h₁ with h₁ | h₁
  · exact Or.inr (h₂.trans h₁.symm)
  · exact Or.inl h₁

theorem finishInflightWriteWithError_invmono {s s' : WritableStream}
    (hi : Inv s) (h : WritableStreamFinishInflightWriteWithError s reason = some s') :
    Inv s' ∧ stateMono s.state s'.state := by
  obtain ⟨h₁, h₂⟩ := finishInflightWriteWithError_spec h
  refine ⟨not_quiet_inv (by simp [Quiet, h₂]) (by simp [ClosedNoPA, h₂]), ?_⟩
  rcases h₁ with h₁ | h₁
  · exact Or.inr (h₂.trans h₁.symm)
  · exact Or.inl h₁

theorem markCloseRequestInflight_spec {s s' : WritableStream}
    (h : WritableStreamMarkCloseRequestInflight s = some s') :
    s.inflightCloseRequest = none ∧ ∃ cid, s.closeRequest = some cid ∧
      s' = { s with inflightCloseRequest := some cid, closeRequest := none } := by
  unfold WritableStreamMarkCloseRequestInflight at h
  by_cases hic : s.inflightCloseRequest = none
  · rw [if_neg (by simpa using hic)] at h
    rcases hcr : s.closeRequest with _ | cid <;> rw [hcr] at h
    · exact absurd h (by simp)
    · exact ⟨hic, cid, rfl, (Option.some_injective _ h).symm⟩
  · rw [if_pos (by simpa using hic)] at h
    exact absurd h (by simp)

theorem markFirstWriteRequestInflight_view {s s' : WritableStream}
    (h : WritableStreamMarkFirstWriteRequestInflight s = some s') : view s' = view s := by
  unfold WritableStreamMarkFirstWriteRequestInflight at h
  by_cases hiw : s.inflightWriteRequest = none
  · rw [if_neg (by simpa using hiw)] at h
    rcases hwr : s.writeRequests with _ | ⟨id, rest⟩ <;> rw [hwr] at h
    · exact absurd h (by simp)
    · obtain rfl := Option.some_injective _ h
      simp [view]
  · rw [if_pos (by simpa using hiw)] at h
    exact absurd h (by simp)

theorem processClose_spec {s s' : WritableStream}
    (h : WritableStreamDefaultControllerProcessClose s = some s') :
    s'.state = s.state ∧ s'.pendingAbortRequest = s.pendingAbortRequest ∧
      s'.inflightCloseRequest ≠ none := by
  unfold WritableStreamDefaultControllerProcessClose at h
  split at h
  next => exact absurd h (by simp)
  next s₁ hmk =>
    obtain ⟨-, cid, -, rfl⟩ := markCloseRequestInflight_spec hmk
    dsimp only at h
    split at h
    next => exact absurd h (by simp)
    next =>
      obtain rfl := Option.some_injective _ h
      simp

theorem processWrite_view {s s' : WritableStream} {c : Nat}
    (h : WritableStreamDefaultControllerProcessWrite s c = some s') : view s' = view s := by
  unfold WritableStreamDefaultControllerProcessWrite at h
  split at h
  next => exact absurd h (by simp)
  next s₁ hmk =>
    obtain rfl := Option.some_injective _ h
    rw [show view { s₁ with sinkLog := s₁.sinkLog ++ [.write c] } = view s₁ from rfl]
    exact markFirstWriteRequestInflight_view hmk

theorem advance_inv {s s' : WritableStream}
    (hi : Inv s) (h : WritableStreamDefaultControllerAdvanceQueueIfNeeded s = some s') :
    Inv s' ∧ s'.state = s.state := by
  unfold WritableStreamDefaultControllerAdvanceQueueIfNeeded at h
  by_cases h₁ : s.state = .closed ∨ s.state = .errored
  · rw [if_pos h₁] at h
    obtain rfl := Option.some_injective _ h
    exact ⟨hi, rfl⟩
  · rw [if_neg h₁] at h
    by_cases h₂ : s.started = false
    · rw [if_pos h₂] at h
      obtain rfl := Option.some_injective _ h
      exact ⟨hi, rfl⟩
    · rw [if_neg h₂] at h
      by_cases h₃ : s.inflightWriteRequest = none
      · rw [if_neg (by simpa using h₃)] at h
        rcases hpk : PeekQueueValue s.queue with _ | v <;> rw [hpk] at h
        · obtain rfl := Option.some_injective _ h
          exact ⟨hi, rfl⟩
        · rcases v with c | _
          · have hv := processWrite_view h
            exact ⟨inv_of_view hv hi, view_state hv⟩
          · obtain ⟨hst, hpa, hicn⟩ := processClose_spec h
            refine ⟨not_quiet_inv (by simp [Quiet, hicn]) ?_, hst⟩
            intro hc
            rw [hpa]
            exact hi.1 (hst ▸ hc)
      · rw [if_pos (by simpa using h₃)] at h
        obtain rfl := Option.some_injective _ h
        exact ⟨hi, rfl⟩

theorem controllerError_spec {s s' : WritableStream} {e : Err}
    (h : WritableStreamDefaultControllerError s e = some s') :
    s.state = .writable ∧ s'.state = .errored ∧ s'.queue = [] := by
  unfold WritableStreamDefaultControllerError at h
  by_cases hst : s.state = .writable
  · rw [if_neg (by simpa using hst)] at h
    refine ⟨hst, ?_⟩
    dsimp only at h
    split at h
    next => exact absurd h (by simp)
    next s₂ hnx =>
      have hs₂ : s₂.state = .errored := by
        by_cases hpa : s.pendingAbortRequest = none
        · rw [if_pos (by simpa using hpa)] at hnx
          rcases ensureReady_spec hnx with ⟨-, rfl⟩ | ⟨w, -, rfl⟩ <;> rfl
        · rw [if_neg (by simpa using hpa)] at hnx
          obtain rfl := Option.some_injective _ hnx
          rfl
      split at h
      next =>
        obtain ⟨-, hv⟩ := rpire_spec h
        constructor
        · simpa [view, hs₂] using congrArg InvView.vstate hv
        · simpa [view] using congrArg InvView.vqueue hv
      next =>
        obtain rfl := Option.some_injective _ h
        exact ⟨hs₂, rfl⟩
  · rw [if_pos (by simpa using hst)] at h
    exact absurd h (by simp)

theorem controllerError_invmono {s s' : WritableStream} {e : Err}
    (hi : Inv s) (h : WritableStreamDefaultControllerError s e = some s') :
    Inv s' ∧ stateMono s.state s'.state := by
  obtain ⟨h₁, h₂, -⟩ := controllerError_spec h
  exact ⟨not_quiet_inv (by simp [Quiet, h₂]) (by simp [ClosedNoPA, h₂]), Or.inl h₁⟩

theorem errorIfNeeded_invmono {s s' : WritableStream} {e : Err}
    (hi : Inv s) (h : WritableStreamDefaultControllerErrorIfNeeded s e = some s') :
    Inv s' ∧ stateMono s.state s'.state := by
  unfold WritableStreamDefaultControllerErrorIfNeeded at h
  by_cases hst : s.state = .writable
  · rw [if_pos hst] at h
    exact controllerError_invmono hi h
  · rw [if_neg hst] at h
    obtain rfl := Option.some_injective _ h
    exact ⟨hi, stateMono_refl _⟩

theorem linked_append_zero {s : WritableStream} (hl : Linked s) (v : QVal) :
    Linked { s with queue := s.queue ++ [(v, 0)] } := by
  refine ⟨?_, hl.2⟩
  show s.backpressure = some _
  rw [hl.1]
  congr 1
  simp [WritableStreamDefaultControllerGetBackpressure,
    WritableStreamDefaultControllerGetDesiredSize, getTotal_append_zero]

theorem controllerClose_inv {s s' : WritableStream}
    (hi : Inv s) (h : WritableStreamDefaultControllerClose s = some s') :
    Inv s' ∧ s'.state = s.state := by
  unfold WritableStreamDefaultControllerClose at h
  rw [show EnqueueValueWithSize s.queue .closeSentinel 0 =
    .ok (s.queue ++ [(.closeSentinel, 0)]) from rfl] at h
  dsimp only at h
  have hi₁ : Inv { s with queue := s.queue ++ [(.closeSentinel, 0)] } := by
    refine ⟨fun hc => hi.1 hc, fun hq => ?_⟩
    have hqs : Quiet s := hq
    exact linked_append_zero (hi.2 hqs) _
  obtain ⟨h₁, h₂⟩ := advance_inv hi₁ h
  exact ⟨h₁, h₂⟩

theorem controllerWrite_invmono {s s' : WritableStream} {chunk : Nat} {sizeRes : Except Err Int}
    (hi : Inv s) (h : WritableStreamDefaultControllerWrite s chunk sizeRes = some s') :
    Inv s' ∧ stateMono s.state s'.state := by
  unfold WritableStreamDefaultControllerWrite at h
  rcases sizeRes with e | chunkSize
  · exact errorIfNeeded_invmono hi h
  · dsimp only at h
    unfold EnqueueValueWithSize at h
    by_cases hsz : chunkSize < 0
    · rw [if_pos hsz] at h
      exact errorIfNeeded_invmono hi h
    · rw [if_neg hsz] at h
      dsimp only at h
      by_cases hc : s.state = .writable ∧ s.closeRequest = none
      · rw [if_pos (by simpa using hc)] at h
        split at h
        next => exact absurd h (by simp)
        next s₂ hupd =>
          obtain ⟨hw₁, hcr₁, hst₂, hcr₂, hicl₂, hpa₂, hq₂, hhwm₂, hbp₂, -, hlink₂⟩ :=
            updateBackpressure_spec hupd
          have hs₂w : s₂.state = .writable := hst₂.trans hw₁
          have hi₂ : Inv s₂ := by
            refine ⟨by simp [ClosedNoPA, hs₂w], fun hq => ?_⟩
            have hqs : Quiet s := by
              refine ⟨hc.1, hc.2, ?_, ?_⟩
              · simpa [hicl₂] using hq.2.2.1
              · simpa [hpa₂] using hq.2.2.2
            have hls := hi.2 hqs
            constructor
            · rw [hbp₂]
              congr 1
              simp [WritableStreamDefaultControllerGetBackpressure,
                WritableStreamDefaultControllerGetDesiredSize, hq₂, hhwm₂]
            · intro w hw
              have := hlink₂ (fun w₀ hw₀ => hls.2 w₀ hw₀) w hw
              rw [this, hbp₂]
              simp
          obtain ⟨hinv, hstq⟩ := advance_inv hi₂ h
          exact ⟨hinv, Or.inl hc.1⟩
      · rw [if_neg (by simpa using hc)] at h
        dsimp only at h
        have hi₁ : Inv { s with queue := s.queue ++ [(.chunkRec chunk, chunkSize)] } := by
          refine ⟨fun hcc => hi.1 hcc, fun hq => ?_⟩
          exact absurd ⟨hq.1, hq.2.1⟩ hc
        obtain ⟨hinv, hstq⟩ := advance_inv hi₁ h
        exact ⟨hinv, Or.inr hstq⟩

theorem ensureReady_frame {s s' : WritableStream} {e : Err} {ip : Option Bool}
    (h : WritableStreamDefaultWriterEnsureReadyPromiseRejectedWith s e ip = some s') :
    s'.state = s.state ∧ s'.closeRequest = s.closeRequest ∧
    s'.inflightCloseRequest = s.inflightCloseRequest ∧
    s'.pendingAbortRequest = s.pendingAbortRequest ∧
    s'.backpressure = s.backpressure ∧ s'.queue = s.queue ∧
    s'.strategyHWM = s.strategyHWM ∧
    s'.inflightWriteRequest = s.inflightWriteRequest ∧
    s'.writeRequests = s.writeRequests ∧ s'.storedError = s.storedError ∧
    s'.nextId = s.nextId ∧ s'.settlements = s.settlements := by
  rcases ensureReady_spec h with ⟨-, rfl⟩ | ⟨w, -, rfl⟩ <;> simp

theorem acquireWriter_inv {s s' : WritableStream}
    (hi : Inv s) (h : AcquireWritableStreamDefaultWriter s = .ok s') :
    Inv s' ∧ s'.state = s.state := by
  unfold AcquireWritableStreamDefaultWriter at h
  by_cases hl : IsWritableStreamLocked s = true
  · rw [if_pos hl] at h
    exact absurd h (by simp)
  · rw [if_neg hl] at h
    dsimp only at h
    simp only [Except.ok.injEq] at h
    subst h
    refine ⟨⟨fun hc => hi.1 hc, fun hq => ?_⟩, rfl⟩
    have hqs : Quiet s := ⟨hq.1, hq.2.1, hq.2.2.1, hq.2.2.2⟩
    obtain ⟨hst, hcr, hicl, hpa⟩ := hqs
    obtain ⟨hbp, hlink⟩ := hi.2 ⟨hst, hcr, hicl, hpa⟩
    refine ⟨hbp, ?_⟩
    intro w' hw'
    simp only [Option.some.injEq] at hw'
    rw [if_pos hst, if_neg (by simp [hpa])] at hw'
    by_cases hbt : s.backpressure = some true
    · rw [if_pos ⟨hcr, hbt⟩] at hw'
      subst hw'
      simp [hbt]
    · rw [if_neg (fun hcontra => hbt hcontra.2)] at hw'
      subst hw'
      simp [hbt]

theorem getWriter_inv {s s' : WritableStream}
    (hi : Inv s) (h : GetWriterStep s = some s') : Inv s' ∧ s'.state = s.state := by
  unfold GetWriterStep at h
  split at h
  next s₁ hok =>
    obtain rfl := Option.some_injective _ h
    exact acquireWriter_inv hi hok
  next e herr =>
    obtain rfl := Option.some_injective _ h
    exact ⟨hi, rfl⟩

theorem writerRelease_inv {s s' : WritableStream}
    (hi : Inv s) (h : WritableStreamDefaultWriterRelease s = some s') :
    Inv s' ∧ s'.state = s.state := by
  unfold WritableStreamDefaultWriterRelease at h
  by_cases hw : s.writer = none
  · rw [if_pos hw] at h
    exact absurd h (by simp)
  · rw [if_neg hw] at h
    split at h
    next => exact absurd h (by simp)
    next s₁ hen =>
      obtain ⟨hst, hcr, hicl, hpa, hbp, hq, hhwm, -, -, -, -, -⟩ := ensureReady_frame hen
      split at h
      next => exact absurd h (by simp)
      next w hw₁ =>
        split at h <;>
          (dsimp only at h
           split at h
           next => exact absurd h (by simp)
           next w' heq₂ =>
             obtain rfl := Option.some_injective _ h
             refine ⟨⟨?_, ?_⟩, hst⟩
             · intro hc
               show s₁.pendingAbortRequest = none
               rw [hpa]
               exact hi.1 (hst.symm.trans hc)
             · intro hq'
               have hqs : Quiet s :=
                 ⟨hst.symm.trans hq'.1, hcr.symm.trans hq'.2.1,
                   hicl.symm.trans hq'.2.2.1, hpa.symm.trans hq'.2.2.2⟩
               obtain ⟨hbp₀, -⟩ := hi.2 hqs
               refine ⟨?_, by simp⟩
               show s₁.backpressure = some _
               rw [hbp, hbp₀]
               congr 1
               simp [WritableStreamDefaultControllerGetBackpressure,
                 WritableStreamDefaultControllerGetDesiredSize, hq, hhwm])

theorem startFulfilled_inv {s s' : WritableStream}
    (hi : Inv s) (h : StartFulfilledStep s = some s') : Inv s' ∧ s'.state = s.state := by
  unfold StartFulfilledStep at h
  have hv : view ({ s with started := true } : WritableStream) = view s := rfl
  obtain ⟨h₁, h₂⟩ := advance_inv (inv_of_view hv hi) h
  exact ⟨h₁, h₂⟩

theorem sinkWriteFulfilled_invmono {s s' : WritableStream}
    (hi : Inv s) (h : SinkWriteFulfilledStep s = some s') :
    Inv s' ∧ stateMono s.state s'.state := by
  unfold SinkWriteFulfilledStep at h
  split at h
  next => exact absurd h (by simp)
  next s₁ hfw =>
    obtain ⟨hi₁, hm₁⟩ := finishInflightWrite_invmono hi hfw
    by_cases he : s₁.state = .errored
    · rw [if_pos he] at h
      obtain rfl := Option.some_injective _ h
      exact ⟨hi₁, hm₁⟩
    · rw [if_neg he] at h
      by_cases hwr : s₁.state = .writable
      · rw [if_neg (by simpa using hwr)] at h
        dsimp only [DequeueValue] at h
        by_cases hcr : s₁.closeRequest = none
        · rw [if_pos hcr] at h
          split at h
          next => exact absurd h (by simp)
          next s₃ hupd =>
            obtain ⟨-, -, hst₃, hcr₃, hicl₃, hpa₃, hq₃, hhwm₃, hbp₃, -, hlink₃⟩ :=
              updateBackpressure_spec hupd
            have hi₃ : Inv s₃ := by
              refine ⟨by simp [ClosedNoPA, hst₃.trans hwr], fun hq => ?_⟩
              have hq₁ : Quiet s₁ := by
                refine ⟨hwr, hcr, ?_, ?_⟩
                · simpa [hicl₃] using hq.2.2.1
                · simpa [hpa₃] using hq.2.2.2
              obtain ⟨-, hlink₁⟩ := hi₁.2 hq₁
              constructor
              · rw [hbp₃]
                congr 1
                simp [WritableStreamDefaultControllerGetBackpressure,
                  WritableStreamDefaultControllerGetDesiredSize, hq₃, hhwm₃]
              · intro w hwv
                rw [hlink₃ (fun w₀ hw₀ => hlink₁ w₀ hw₀) w hwv, hbp₃]
                simp
            obtain ⟨h₁, h₂⟩ := advance_inv hi₃ h
            refine ⟨h₁, stateMono_trans hm₁ (Or.inr (h₂.trans hst₃))⟩
        · rw [if_neg hcr] at h
          dsimp only at h
          have hi₂ : Inv { s₁ with queue := s₁.queue.tail } := by
            refine ⟨by simp [ClosedNoPA, hwr], fun hq => ?_⟩
            exact absurd hq.2.1 (by simpa using hcr)
          obtain ⟨h₁, h₂⟩ := advance_inv hi₂ h
          exact ⟨h₁, stateMono_trans hm₁ (Or.inr h₂)⟩
      · rw [if_pos (by simpa using hwr)] at h
        exact absurd h (by simp)

theorem sinkWriteRejected_invmono {s s' : WritableStream} {r : Err}
    (hi : Inv s) (h : SinkWriteRejectedStep s r = some s') :
    Inv s' ∧ stateMono s.state s'.state := by
  unfold SinkWriteRejectedStep at h
  dsimp only at h
  split at h
  next => exact absurd h (by simp)
  next s₁ hfe =>
    obtain ⟨hc, he⟩ := finishInflightWriteWithError_spec hfe
    rw [if_neg (by simpa using he)] at h
    have hmono : stateMono s.state s₁.state := by
      rcases hc with hc | hc
      · exact Or.inr (he.trans hc.symm)
      · exact Or.inl hc
    by_cases hwe : s.state = .errored
    · rw [if_neg (by simp [hwe])] at h
      obtain rfl := Option.some_injective _ h
      exact ⟨not_quiet_inv (by simp [Quiet, he]) (by simp [ClosedNoPA, he]), hmono⟩
    · rw [if_pos (by simp [hwe])] at h
      obtain rfl := Option.some_injective _ h
      refine ⟨not_quiet_inv (by simp [Quiet, he]) (by simp [ClosedNoPA, he]), ?_⟩
      rcases hc with hc | hc
      · exact absurd hc hwe
      · exact Or.inl hc

theorem sinkAbortFulfilled_inv {s s' : WritableStream}
    (hi : Inv s) (h : SinkAbortFulfilledStep s = some s') : Inv s' ∧ s'.state = s.state := by
  unfold SinkAbortFulfilledStep at h
  by_cases hwt : s.sinkAbortWaiters = []
  · rw [if_pos hwt] at h
    exact absurd h (by simp)
  · rw [if_neg hwt] at h
    dsimp only at h
    obtain rfl := Option.some_injective _ h
    have hv : view ({ s.sinkAbortWaiters.foldl
        (fun acc id => settleReq acc id .resolvedUndef) s with
          sinkAbortWaiters := [] } : WritableStream) = view s := by
      rw [show view ({ s.sinkAbortWaiters.foldl
        (fun acc id => settleReq acc id .resolvedUndef) s with
          sinkAbortWaiters := [] } : WritableStream) =
        view (s.sinkAbortWaiters.foldl
          (fun acc id => settleReq acc id .resolvedUndef) s) from rfl]
      exact view_foldl_settleReq s.sinkAbortWaiters (fun _ => .resolvedUndef) s
    exact ⟨inv_of_view hv hi, view_state hv⟩

theorem sinkAbortRejected_inv {s s' : WritableStream} {r : Err}
    (hi : Inv s) (h : SinkAbortRejectedStep s r = some s') : Inv s' ∧ s'.state = s.state := by
  unfold SinkAbortRejectedStep at h
  by_cases hwt : s.sinkAbortWaiters = []
  · rw [if_pos hwt] at h
    exact absurd h (by simp)
  · rw [if_neg hwt] at h
    dsimp only at h
    obtain rfl := Option.some_injective _ h
    have hv : view ({ s.sinkAbortWaiters.foldl
        (fun acc id => settleReq acc id (.rejected (some r))) s with
          sinkAbortWaiters := [] } : WritableStream) = view s := by
      rw [show view ({ s.sinkAbortWaiters.foldl
        (fun acc id => settleReq acc id (.rejected (some r))) s with
          sinkAbortWaiters := [] } : WritableStream) =
        view (s.sinkAbortWaiters.foldl
          (fun acc id => settleReq acc id (.rejected (some r))) s) from rfl]
      exact view_foldl_settleReq s.sinkAbortWaiters (fun _ => .rejected (some r)) s
    exact ⟨inv_of_view hv hi, view_state hv⟩

theorem writerWrite_invmono {s s₁ : WritableStream} {chunk : Nat} {res : CallResult}
    {sizeRes : Except Err Int}
    (hi : Inv s) (h : WritableStreamDefaultWriterWrite s chunk sizeRes = some (s₁, res)) :
    Inv s₁ ∧ stateMono s.state s₁.state := by
  unfold WritableStreamDefaultWriterWrite at h
  by_cases hcr : s.closeRequest = none
  · rw [if_neg (by simpa using hcr)] at h
    by_cases hce : s.state = .closed ∨ s.state = .errored
    · rw [if_pos hce] at h
      simp only [Option.some.injEq, Prod.mk.injEq] at h
      obtain ⟨rfl, -⟩ := h
      exact ⟨hi, stateMono_refl _⟩
    · rw [if_neg hce] at h
      by_cases hpa : s.pendingAbortRequest = none
      · rw [if_neg (by simpa using hpa)] at h
        by_cases hwr : s.state = .writable
        · rw [if_neg (by simpa using hwr)] at h
          split at h
          next => exact absurd h (by simp)
          next s₂ wid hadd =>
            obtain ⟨hv₂, -, -⟩ := addWriteRequest_spec hadd
            split at h
            next => exact absurd h (by simp)
            next s₃ hcw =>
              simp only [Option.some.injEq, Prod.mk.injEq] at h
              obtain ⟨rfl, -⟩ := h
              obtain ⟨h₁, h₂⟩ := controllerWrite_invmono (inv_of_view hv₂ hi) hcw
              exact ⟨h₁, stateMono_trans (Or.inr (view_state hv₂)) h₂⟩
        · rw [if_pos (by simpa using hwr)] at h
          exact absurd h (by simp)
      · rw [if_pos (by simpa using hpa)] at h
        simp only [Option.some.injEq, Prod.mk.injEq] at h
        obtain ⟨rfl, -⟩ := h
        exact ⟨inv_of_view (by simp [view]) hi, Or.inr rfl⟩
  · rw [if_pos (by simpa using hcr)] at h
    exact absurd h (by simp)

theorem writerWriteMethod_invmono {s s₁ : WritableStream} {chunk : Nat} {res : CallResult}
    {sizeRes : Except Err Int}
    (hi : Inv s)
    (h : WritableStreamDefaultWriterWriteMethod s chunk sizeRes = some (s₁, res)) :
    Inv s₁ ∧ stateMono s.state s₁.state := by
  unfold WritableStreamDefaultWriterWriteMethod at h
  by_cases hw : s.writer = none
  · rw [if_pos hw] at h
    exact absurd h (by simp)
  · rw [if_neg hw] at h
    by_cases hcr : s.closeRequest = none
    · rw [if_neg (by simpa using hcr)] at h
      exact writerWrite_invmono hi h
    · rw [if_pos (by simpa using hcr)] at h
      simp only [Option.some.injEq, Prod.mk.injEq] at h
      obtain ⟨rfl, -⟩ := h
      exact ⟨hi, stateMono_refl _⟩

theorem writerClose_invmono {s s₁ : WritableStream} {res : CallResult}
    (hi : Inv s) (h : WritableStreamDefaultWriterClose s = some (s₁, res)) :
    Inv s₁ ∧ stateMono s.state s₁.state := by
  unfold WritableStreamDefaultWriterClose at h
  by_cases hce : s.state = .closed ∨ s.state = .errored
  · rw [if_pos hce] at h
    simp only [Option.some.injEq, Prod.mk.injEq] at h
    obtain ⟨rfl, -⟩ := h
    exact ⟨hi, stateMono_refl _⟩
  · rw [if_neg hce] at h
    by_cases hpa : s.pendingAbortRequest = none
    · rw [if_neg (by simpa using hpa)] at h
      by_cases hwr : s.state = .writable
      · rw [if_neg (by simpa using hwr)] at h
        by_cases hcr : s.closeRequest = none
        · rw [if_neg (by simpa using hcr)] at h
          dsimp only at h
          by_cases hbp : s.backpressure = some true
          · rw [if_pos hbp] at h
            rcases hwv : s.writer with _ | w <;> rw [hwv] at h <;> dsimp only at h
            · exact absurd h (by simp)
            · rcases hrv : defaultWriterReadyPromiseResolve w with _ | w' <;>
                rw [hrv] at h <;> dsimp only at h
              · exact absurd h (by simp)
              · split at h
                next => exact absurd h (by simp)
                next s₃ hcc =>
                  simp only [Option.some.injEq, Prod.mk.injEq] at h
                  obtain ⟨rfl, -⟩ := h
                  obtain ⟨h₁, h₂⟩ := controllerClose_inv
                    (not_quiet_inv (by simp [Quiet]) (by simp [ClosedNoPA, hwr])) hcc
                  exact ⟨h₁, Or.inl hwr⟩
          · rw [if_neg hbp] at h
            dsimp only at h
            split at h
            next => exact absurd h (by simp)
            next s₃ hcc =>
              simp only [Option.some.injEq, Prod.mk.injEq] at h
              obtain ⟨rfl, -⟩ := h
              obtain ⟨h₁, h₂⟩ := controllerClose_inv
                (not_quiet_inv (by simp [Quiet]) (by simp [ClosedNoPA, hwr])) hcc
              exact ⟨h₁, Or.inl hwr⟩
        · rw [if_pos (by simpa using hcr)] at h
          exact absurd h (by simp)
      · rw [if_pos (by simpa using hwr)] at h
        exact absurd h (by simp)
    · rw [if_pos (by simpa using hpa)] at h
      simp only [Option.some.injEq, Prod.mk.injEq] at h
      obtain ⟨rfl, -⟩ := h
      exact ⟨inv_of_view (by simp [view]) hi, Or.inr rfl⟩

theorem writerCloseMethod_invmono {s s₁ : WritableStream} {res : CallResult}
    (hi : Inv s) (h : WritableStreamDefaultWriterCloseMethod s = some (s₁, res)) :
    Inv s₁ ∧ stateMono s.state s₁.state := by
  unfold WritableStreamDefaultWriterCloseMethod at h
  by_cases hw : s.writer = none
  · rw [if_pos hw] at h
    exact absurd h (by simp)
  · rw [if_neg hw] at h
    by_cases hcr : s.closeRequest = none
    · rw [if_neg (by simpa using hcr)] at h
      exact writerClose_invmono hi h
    · rw [if_pos (by simpa using hcr)] at h
      simp only [Option.some.injEq, Prod.mk.injEq] at h
      obtain ⟨rfl, -⟩ := h
      exact ⟨hi, stateMono_refl _⟩

theorem step_invmono {op : Op} {s s' : WritableStream}
    (hi : Inv s) (h : step op s = some s') :
    Inv s' ∧ stateMono s.state s'.state := by
  cases op with
  | getWriter =>
    obtain ⟨h₁, h₂⟩ := getWriter_inv hi h
    exact ⟨h₁, Or.inr h₂⟩
  | writerWrite chunk sizeRes =>
    simp only [step] at h
    rcases hm : WritableStreamDefaultWriterWriteMethod s chunk sizeRes with _ | ⟨s₁, res⟩ <;>
      rw [hm] at h
    · exact absurd h (by simp)
    · simp only [Option.map_some'] at h
      obtain rfl := Option.some_injective _ h
      exact writerWriteMethod_invmono hi hm
  | writerClose =>
    simp only [step] at h
    rcases hm : WritableStreamDefaultWriterCloseMethod s with _ | ⟨s₁, res⟩ <;> rw [hm] at h
    · exact absurd h (by simp)
    · simp only [Option.map_some'] at h
      obtain rfl := Option.some_injective _ h
      exact writerCloseMethod_invmono hi hm
  | writerAbort r =>
    simp only [step, WriterAbortStep] at h
    by_cases hw : s.writer = none
    · rw [if_pos hw] at h
      exact absurd h (by simp)
    · rw [if_neg hw] at h
      rcases hm : WritableStreamAbort s r with _ | ⟨s₁, res⟩ <;> rw [hm] at h
      · exact absurd h (by simp)
      · simp only [Option.map_some'] at h
        obtain rfl := Option.some_injective _ h
        exact abort_invmono hi hm
  | streamAbort r =>
    simp only [step, WritableStreamAbortMethod] at h
    by_cases hl : IsWritableStreamLocked s = true
    · rw [if_pos hl] at h
      simp only [Option.map_some'] at h
      obtain rfl := Option.some_injective _ h
      exact ⟨hi, stateMono_refl _⟩
    · rw [if_neg hl] at h
      rcases hm : WritableStreamAbort s r with _ | ⟨s₁, res⟩ <;> rw [hm] at h
      · exact absurd h (by simp)
      · simp only [Option.map_some'] at h
        obtain rfl := Option.some_injective _ h
        exact abort_invmono hi hm
  | writerRelease =>
    obtain ⟨h₁, h₂⟩ := writerRelease_inv hi h
    exact ⟨h₁, Or.inr h₂⟩
  | controllerError e =>
    simp only [step, WritableStreamDefaultControllerErrorMethod] at h
    by_cases hce : s.state = .closed ∨ s.state = .errored
    · rw [if_pos hce] at h
      obtain rfl := Option.some_injective _ h
      exact ⟨hi, stateMono_refl _⟩
    · rw [if_neg hce] at h
      exact controllerError_invmono hi h
  | startFulfilled =>
    obtain ⟨h₁, h₂⟩ := startFulfilled_inv hi h
    exact ⟨h₁, Or.inr h₂⟩
  | startRejected e => exact errorIfNeeded_invmono hi h
  | sinkWriteFulfilled => exact sinkWriteFulfilled_invmono hi h
  | sinkWriteRejected e => exact sinkWriteRejected_invmono hi h
  | sinkCloseFulfilled => exact finishInflightClose_invmono hi h
  | sinkCloseRejected e => exact finishInflightCloseWithError_invmono hi h
  | sinkAbortFulfilled =>
    obtain ⟨h₁, h₂⟩ := sinkAbortFulfilled_inv hi h
    exact ⟨h₁, Or.inr h₂⟩
  | sinkAbortRejected e =>
    obtain ⟨h₁, h₂⟩ := sinkAbortRejected_inv hi h
    exact ⟨h₁, Or.inr h₂⟩

theorem steps_invmono {ops : List Op} {s s' : WritableStream}
    (hi : Inv s) (h : steps ops s = some s') :
    Inv s' ∧ stateMono s.state s'.state := by
  induction ops generalizing s with
  | nil =>
    obtain rfl := Option.some_injective _ (by simpa [steps] using h)
    exact ⟨hi, stateMono_refl _⟩
  | cons op rest ih =>
    simp only [steps] at h
    split at h
    next => exact absurd h (by simp)
    next s₁ hstep =>
      obtain ⟨hi₁, hm₁⟩ := step_invmono hi hstep
      obtain ⟨hi', hm'⟩ := ih hi₁ h
      exact ⟨hi', stateMono_trans hm₁ hm'⟩

theorem construct_inv {sinkT : Bool} {hwm : Int} {s₀ : WritableStream}
    (h : WritableStreamConstruct sinkT hwm = .ok s₀) : Inv s₀ := by
  unfold WritableStreamConstruct at h
  by_cases ht : sinkT = true
  · rw [if_pos ht] at h
    exact absurd h (by simp)
  · rw [if_neg ht] at h
    by_cases hh : hwm < 0
    · rw [if_pos hh] at h
      exact absurd h (by simp)
    · rw [if_neg hh] at h
      simp only [Except.ok.injEq] at h
      subst h
      exact ⟨fun hc => by simp at hc, fun _ => ⟨rfl, by simp⟩⟩

theorem abort_with_pending {s : WritableStream} {r : Nat} {pa : PendingAbort}
    (hw : s.state = .writable) (hpa : s.pendingAbortRequest = some pa) :
    WritableStreamAbort s r =
      some ({ s with nextId := s.nextId + 1 },
        .rejectedWith (some (.aborted s.nextId))) := by
  unfold WritableStreamAbort
  rw [if_neg (by simp [hw]), if_neg (by simp [hw])]
  dsimp only
  rw [if_pos (by simp [hpa])]

theorem abort_records_pending {s s₁ : WritableStream} {r : Nat} {res : CallResult}
    (hw : s.state = .writable) (hpa : s.pendingAbortRequest = none)
    (hin : WritableStreamHasOperationMarkedInflight s = true)
    (h : WritableStreamAbort s r = some (s₁, res)) :
    s₁.state = .writable ∧ s₁.pendingAbortRequest = some ⟨s.nextId + 1, r⟩ ∧
    s₁.nextId = s.nextId + 2 := by
  unfold WritableStreamAbort at h
  rw [if_neg (by simp [hw]), if_neg (by simp [hw])] at h
  dsimp only at h
  rw [if_neg (by simp [hpa]), if_neg (by simp [hw])] at h
  split at h
  next => exact absurd h (by simp)
  next s₂ hen =>
    obtain ⟨hst, -, hicl, -, -, -, -, hiw, -, -, hnx, -⟩ := ensureReady_frame hen
    have hin₂ : WritableStreamHasOperationMarkedInflight s₂ = true := by
      unfold WritableStreamHasOperationMarkedInflight at hin ⊢
      rw [hiw, hicl]
      exact hin
    rw [if_neg (by simp [hin₂])] at h
    simp only [Option.some.injEq, Prod.mk.injEq] at h
    obtain ⟨rfl, -⟩ := h
    refine ⟨hst.trans hw, ?_, ?_⟩
    · show some (⟨s₂.nextId, r⟩ : PendingAbort) = _
      rw [hnx]
    · show s₂.nextId + 1 = _
      rw [hnx]

/-! ### Concrete states used in witnesses and counterexamples -/

/-- The stream constructed with no sink `type` and high-water mark 1
(the value of `WritableStreamConstruct false 1`). -/
def initHWM1 : WritableStream where
  state := .writable
  storedError := none
  writer := none
  writeRequests := []
  inflightWriteRequest := none
  closeRequest := none
  inflightCloseRequest := none
  pendingAbortRequest := none
  backpressure := some false
  queue := []
  started := false
  strategyHWM := 1
  sinkLog := [.start]
  settlements := []
  sinkAbortWaiters := []
  nextId := 0

/-- A started stream taken to `closed` by a clean close. -/
def closedAfterClose : WritableStream :=
  (steps [.getWriter, .startFulfilled, .writerClose, .sinkCloseFulfilled] initHWM1).getD initHWM1

/-- The closed stream after a further (locked, rejected) abort call. -/
def closedAfterAbort : WritableStream :=
  (steps [.streamAbort 0] closedAfterClose).getD initHWM1

/-- The state reached by close-then-write on a started stream: the close is
already in flight at the sink when the write arrives. -/
def writeAfterCloseBad : WritableStream :=
  (steps [.getWriter, .startFulfilled, .writerClose, .writerWrite 7 (.ok 1)] initHWM1).getD
    initHWM1

/-- A stream with an attached writer only. -/
def reachedWithWriter : WritableStream :=
  (steps [.getWriter] initHWM1).getD initHWM1

/-- A closed stream. -/
def wClosedEx : WritableStream := { initHWM1 with state := .closed, started := true }

/-- An errored stream with a stored sink error. -/
def wErroredEx : WritableStream :=
  { initHWM1 with state := .errored, storedError := some (.sinkErr 3), started := true }

/-- A writable stream with a recorded pending abort request. -/
def wPendingEx : WritableStream :=
  { initHWM1 with pendingAbortRequest := some ⟨2, 9⟩, nextId := 3, started := true }

/-- A writable stream with a writer attached, backpressure signalled and a
write in flight at the sink. -/
def wInflightEx : WritableStream :=
  { initHWM1 with
    writer := some ⟨.pending, .pending⟩
    backpressure := some true
    inflightWriteRequest := some 0
    started := true
    nextId := 3 }

/-- `wInflightEx` after a first abort call, which records a pending abort. -/
def wInflightAborted : WritableStream :=
  ((WritableStreamAbort wInflightEx 5).map Prod.fst).getD initHWM1

/-- A writable stream with a writer attached (locked). -/
def wLockedEx : WritableStream :=
  { initHWM1 with
    writer := some ⟨.pending, .pending⟩
    backpressure := some true
    started := true }

/-- A writable stream whose sink close is in flight while an abort is
pending. -/
def wC6Ex : WritableStream :=
  { initHWM1 with
    inflightCloseRequest := some 3
    pendingAbortRequest := some ⟨7, 1⟩
    writer := some ⟨.rejected (some (.aborted 0)), .pending⟩
    started := true
    nextId := 8 }

/-- The writer-construction result over the errored stream. -/
def wErroredWriter : WritableStream :=
  (AcquireWritableStreamDefaultWriter wErroredEx).toOption.getD initHWM1

/-- A writable stream with a queued chunk and a queued close sentinel. -/
def wQueueEx : WritableStream :=
  { initHWM1 with
    queue := [(.chunkRec 5, 1), (.closeSentinel, 0)]
    closeRequest := some 0
    started := true
    nextId := 1 }

/-- `wQueueEx` after the controller-level error operation. -/
def wQueueErrored : WritableStream :=
  (WritableStreamDefaultControllerError wQueueEx (.sinkErr 4)).getD initHWM1

/-! ### The claims -/

/-- C1: for every stream, the transition out of `writable` is irreversible:
along every executed operation sequence from a constructed stream, once the
state is observed `closed` it stays `closed`, and once observed `errored` it
stays `errored` — in particular no sequence returns to `writable` or moves
between `closed` and `errored`. -/
theorem C1_state_transition_irreversible (hwm : Int) (ops₁ ops₂ : List Op)
    (s₀ s₁ s₂ : WritableStream)
    (h₀ : WritableStreamConstruct false hwm = .ok s₀)
    (h₁ : steps ops₁ s₀ = some s₁) (h₂ : steps ops₂ s₁ = some s₂) :
    (s₁.state = .closed → s₂.state = .closed) ∧
    (s₁.state = .errored → s₂.state = .errored) := by
  obtain ⟨hi₁, -⟩ := steps_invmono (construct_inv h₀) h₁
  obtain ⟨-, hm⟩ := steps_invmono hi₁ h₂
  constructor
  · intro hc
    rcases hm with hm | hm
    · rw [hc] at hm
      exact absurd hm (by simp)
    · rw [hm, hc]
  · intro hc
    rcases hm with hm | hm
    · rw [hc] at hm
      exact absurd hm (by simp)
    · rw [hm, hc]

theorem C1_witness :
    (closedAfterClose.state = .closed → closedAfterAbort.state = .closed) ∧
    (closedAfterClose.state = .errored → closedAfterAbort.state = .errored) :=
  C1_state_transition_irreversible 1
    [.getWriter, .startFulfilled, .writerClose, .sinkCloseFulfilled] [.streamAbort 0]
    initHWM1 closedAfterClose closedAfterAbort (by decide) (by decide) (by decide)

/-- C2: the claim that at most one of `inflightWriteRequest` and
`inflightCloseRequest` is ever set fails on the code: on a started stream,
`close()` synchronously moves the close request in flight and dispatches
`sink.close`; a subsequent `write()` then passes the `closeRequest` check
(the slot is already empty), and the queue advance dispatches `sink.write`
while the close is still in flight, leaving both in-flight slots occupied. -/
theorem C2_double_inflight_bug :
    steps [.getWriter, .startFulfilled, .writerClose, .writerWrite 7 (.ok 1)] initHWM1 =
      some writeAfterCloseBad ∧
    writeAfterCloseBad.inflightWriteRequest = some 1 ∧
    writeAfterCloseBad.inflightCloseRequest = some 0 := by
  decide

/-- C3: for every reachable stream with an attached writer, in the writable
state with no close requested (neither queued nor in flight) and no pending
abort, the writer's `ready` promise is pending exactly when
`hwm - totalSize ≤ 0`; and the initial backpressure computed at construction
is `hwm ≤ 0`. -/
theorem C3_backpressure_correct :
    (∀ (hwm : Int) (ops : List Op) (s₀ s : WritableStream) (w : WriterState),
      WritableStreamConstruct false hwm = .ok s₀ → steps ops s₀ = some s →
      s.writer = some w → s.state = .writable → s.closeRequest = none →
      s.inflightCloseRequest = none → s.pendingAbortRequest = none →
      (w.readyP = PSlot.pending ↔ s.strategyHWM - GetTotalQueueSize s.queue ≤ 0)) ∧
    (∀ (hwm : Int) (s₀ : WritableStream),
      WritableStreamConstruct false hwm = .ok s₀ →
      s₀.backpressure = some (decide (hwm ≤ 0))) := by
  constructor
  · intro hwm ops s₀ s w h₀ hsteps hw hst hcr hicl hpa
    obtain ⟨hi, -⟩ := steps_invmono (construct_inv h₀) hsteps
    obtain ⟨hbp, hlink⟩ := hi.2 ⟨hst, hcr, hicl, hpa⟩
    rw [hlink w hw, hbp]
    simp [WritableStreamDefaultControllerGetBackpressure,
      WritableStreamDefaultControllerGetDesiredSize]
  · intro hwm s₀ h₀
    unfold WritableStreamConstruct at h₀
    by_cases hh : hwm < 0
    · rw [if_neg (by simp), if_pos hh] at h₀
      exact absurd h₀ (by simp)
    · rw [if_neg (by simp), if_neg hh] at h₀
      simp only [Except.ok.injEq] at h₀
      subst h₀
      simp [GetTotalQueueSize]

theorem C3_witness :
    ((⟨.resolved, .pending⟩ : WriterState).readyP = PSlot.pending ↔
      reachedWithWriter.strategyHWM - GetTotalQueueSize reachedWithWriter.queue ≤ 0) ∧
    initHWM1.backpressure = some (decide ((1 : Int) ≤ 0)) :=
  ⟨C3_backpressure_correct.1 1 [.getWriter] initHWM1 reachedWithWriter ⟨.resolved, .pending⟩
      (by decide) (by decide) (by decide) (by decide) (by decide) (by decide) (by decide),
    C3_backpressure_correct.2 1 initHWM1 (by decide)⟩

/-- C4: the abort path: on a closed stream it returns a promise resolved with
undefined; on an errored stream a promise rejected with `storedError`; with a
pending abort request already recorded it rejects with a freshly allocated
abort type error (a strictly later allocation than any error of the first
call, hence not the original one); and the stream-level surface rejects with
a lock error while a writer is attached. -/
theorem C4_abort_behaviour :
    (∀ (s : WritableStream) (r : Nat), s.state = .closed →
      WritableStreamAbort s r = some (s, .resolvedUndef)) ∧
    (∀ (s : WritableStream) (r : Nat), s.state = .errored →
      WritableStreamAbort s r = some (s, .rejectedWith s.storedError)) ∧
    (∀ (s : WritableStream) (r : Nat) (pa : PendingAbort),
      s.state = .writable → s.pendingAbortRequest = some pa →
      WritableStreamAbort s r =
        some ({ s with nextId := s.nextId + 1 },
          .rejectedWith (some (.aborted s.nextId)))) ∧
    (∀ (s s₁ : WritableStream) (r₁ r₂ : Nat) (res₁ : CallResult),
      s.state = .writable → s.pendingAbortRequest = none →
      WritableStreamHasOperationMarkedInflight s = true →
      WritableStreamAbort s r₁ = some (s₁, res₁) →
      s.nextId < s₁.nextId ∧
      WritableStreamAbort s₁ r₂ =
        some ({ s₁ with nextId := s₁.nextId + 1 },
          .rejectedWith (some (.aborted s₁.nextId))) ∧
      Err.aborted s₁.nextId ≠ Err.aborted s.nextId) ∧
    (∀ (s : WritableStream) (r : Nat), s.writer ≠ none →
      WritableStreamAbortMethod s r = some (s, .rejectedWith (some .streamLockedAbort))) := by
  refine ⟨?_, ?_, ?_, ?_, ?_⟩
  · intro s r hc
    unfold WritableStreamAbort
    rw [if_pos hc]
  · intro s r he
    unfold WritableStreamAbort
    rw [if_neg (by simp [he]), if_pos he]
  · intro s r pa hw hpa
    exact abort_with_pending hw hpa
  · intro s s₁ r₁ r₂ res₁ hw hpa hin h
    obtain ⟨hst₁, hpa₁, hnx₁⟩ := abort_records_pending hw hpa hin h
    refine ⟨by rw [hnx₁]; omega, abort_with_pending hst₁ hpa₁, ?_⟩
    simp only [ne_eq, Err.aborted.injEq, hnx₁]
    omega
  · intro s r hl
    unfold WritableStreamAbortMethod
    rw [if_pos (by simp [IsWritableStreamLocked, hl])]

theorem C4_witness :
    WritableStreamAbort wClosedEx 0 = some (wClosedEx, .resolvedUndef) ∧
    WritableStreamAbort wErroredEx 0 = some (wErroredEx, .rejectedWith wErroredEx.storedError) ∧
    WritableStreamAbort wPendingEx 0 =
      some ({ wPendingEx with nextId := wPendingEx.nextId + 1 },
        .rejectedWith (some (.aborted wPendingEx.nextId))) ∧
    (wInflightEx.nextId < wInflightAborted.nextId ∧
      WritableStreamAbort wInflightAborted 6 =
        some ({ wInflightAborted with nextId := wInflightAborted.nextId + 1 },
          .rejectedWith (some (.aborted wInflightAborted.nextId))) ∧
      Err.aborted wInflightAborted.nextId ≠ Err.aborted wInflightEx.nextId) ∧
    WritableStreamAbortMethod wLockedEx 0 =
      some (wLockedEx, .rejectedWith (some .streamLockedAbort)) :=
  ⟨C4_abort_behaviour.1 wClosedEx 0 (by decide),
   C4_abort_behaviour.2.1 wErroredEx 0 (by decide),
   C4_abort_behaviour.2.2.1 wPendingEx 0 ⟨2, 9⟩ (by decide) (by decide),
   C4_abort_behaviour.2.2.2.1 wInflightEx wInflightAborted 5 6 (.pendingReq 4)
     (by decide) (by decide) (by decide) (by decide),
   C4_abort_behaviour.2.2.2.2 wLockedEx 0 (by decide)⟩

/-- C5: the claim that after `close()` every `write(chunk)` rejects and the
chunk never reaches the sink fails on the code once the close request has
moved to the in-flight slot: on a started stream, `close()` then
`write("x")` ends with `sink.write` dispatched (the chunk is offered to the
sink after `sink.close`), the write request in flight, and no settlement of
the write promise. -/
theorem C5_write_after_close_reaches_sink :
    steps [.getWriter, .startFulfilled, .writerClose, .writerWrite 7 (.ok 1)] initHWM1 =
      some writeAfterCloseBad ∧
    writeAfterCloseBad.sinkLog = [.start, .close, .write 7] ∧
    writeAfterCloseBad.settlements = [] ∧
    writeAfterCloseBad.inflightWriteRequest = some 1 := by
  decide

/-- C6: when the sink close fulfils while the stream is still writable and a
pending abort request is recorded, the in-flight close request resolves with
undefined, the stream becomes `errored` with the stored
"abort requested but closed successfully" error, the pending abort request
resolves with undefined, and the writer's `closed` promise rejects with that
stored error. -/
theorem C6_close_fulfilled_while_abort_pending (s : WritableStream) (cid : Nat)
    (pa : PendingAbort) (w : WriterState)
    (hic : s.inflightCloseRequest = some cid) (hst : s.state = .writable)
    (hpa : s.pendingAbortRequest = some pa) (hw : s.writer = some w)
    (hcp : w.closedP = .pending) :
    ∃ s', WritableStreamFinishInflightClose s = some s' ∧
      s'.settlements = s.settlements ++ [(cid, .resolvedUndef), (pa.id, .resolvedUndef)] ∧
      s'.state = .errored ∧ s'.storedError = some .abortClosed ∧
      s'.pendingAbortRequest = none ∧ s'.inflightCloseRequest = none ∧
      s'.writer = some ⟨w.readyP, .rejected (some .abortClosed)⟩ := by
  unfold WritableStreamFinishInflightClose
  rw [hic]
  dsimp only [settleReq]
  rw [if_neg (by simp [hst]), if_neg (by simp [hst]), if_neg (by simp [hpa]), hpa]
  dsimp only
  unfold WritableStreamRejectClosedPromiseIfAny
  rw [hw]
  dsimp only
  unfold defaultWriterClosedPromiseReject
  rw [hcp]
  dsimp only
  exact ⟨_, rfl, by simp, rfl, rfl, rfl, rfl, rfl⟩

theorem C6_witness :
    ∃ s', WritableStreamFinishInflightClose wC6Ex = some s' ∧
      s'.settlements = wC6Ex.settlements ++ [(3, .resolvedUndef), (7, .resolvedUndef)] ∧
      s'.state = .errored ∧ s'.storedError = some .abortClosed ∧
      s'.pendingAbortRequest = none ∧ s'.inflightCloseRequest = none ∧
      s'.writer = some ⟨(⟨.rejected (some (.aborted 0)), .pending⟩ : WriterState).readyP,
        .rejected (some .abortClosed)⟩ :=
  C6_close_fulfilled_while_abort_pending wC6Ex 3 ⟨7, 1⟩ ⟨.rejected (some (.aborted 0)), .pending⟩
    (by decide) (by decide) (by decide) (by decide) (by decide)

/-- C7: constructing a writer over an unlocked stream initializes its
promises per the spec table: writable with a pending abort gives `ready`
rejected with `storedError` and `closed` pending; writable without pending
abort gives `ready` pending when backpressure is signalled and no close is
requested, else resolved, with `closed` pending; closed gives both resolved;
errored gives both rejected with `storedError`. -/
theorem C7_writer_construction_table (s s' : WritableStream)
    (hunlocked : s.writer = none)
    (h : AcquireWritableStreamDefaultWriter s = .ok s') :
    ∃ w, s'.writer = some w ∧
      (s.state = .writable → s.pendingAbortRequest ≠ none →
        w.readyP = .rejected s.storedError ∧ w.closedP = .pending) ∧
      (s.state = .writable → s.pendingAbortRequest = none →
        s.closeRequest = none → s.backpressure = some true →
        w.readyP = .pending ∧ w.closedP = .pending) ∧
      (s.state = .writable → s.pendingAbortRequest = none →
        ¬(s.closeRequest = none ∧ s.backpressure = some true) →
        w.readyP = .resolved ∧ w.closedP = .pending) ∧
      (s.state = .closed → w.readyP = .resolved ∧ w.closedP = .resolved) ∧
      (s.state = .errored → w.readyP = .rejected s.storedError ∧
        w.closedP = .rejected s.storedError) := by
  unfold AcquireWritableStreamDefaultWriter at h
  rw [if_neg (by simp [IsWritableStreamLocked, hunlocked])] at h
  simp only [Except.ok.injEq] at h
  subst h
  refine ⟨_, rfl, ?_, ?_, ?_, ?_, ?_⟩
  · intro hst hpa
    rw [if_pos hst, if_pos (by simpa using hpa)]
    exact ⟨rfl, rfl⟩
  · intro hst hpa hcr hbp
    rw [if_pos hst, if_neg (by simp [hpa]), if_pos ⟨hcr, hbp⟩]
    exact ⟨rfl, rfl⟩
  · intro hst hpa hnc
    rw [if_pos hst, if_neg (by simp [hpa]), if_neg hnc]
    exact ⟨rfl, rfl⟩
  · intro hst
    rw [if_neg (by simp [hst]), if_pos hst]
    exact ⟨rfl, rfl⟩
  · intro hst
    rw [if_neg (by simp [hst]), if_neg (by simp [hst])]
    exact ⟨rfl, rfl⟩

theorem C7_witness :
    ∃ w, wErroredWriter.writer = some w ∧
      (wErroredEx.state = .writable → wErroredEx.pendingAbortRequest ≠ none →
        w.readyP = .rejected wErroredEx.storedError ∧ w.closedP = .pending) ∧
      (wErroredEx.state = .writable → wErroredEx.pendingAbortRequest = none →
        wErroredEx.closeRequest = none → wErroredEx.backpressure = some true →
        w.readyP = .pending ∧ w.closedP = .pending) ∧
      (wErroredEx.state = .writable → wErroredEx.pendingAbortRequest = none →
        ¬(wErroredEx.closeRequest = none ∧ wErroredEx.backpressure = some true) →
        w.readyP = .resolved ∧ w.closedP = .pending) ∧
      (wErroredEx.state = .closed → w.readyP = .resolved ∧ w.closedP = .resolved) ∧
      (wErroredEx.state = .errored → w.readyP = .rejected wErroredEx.storedError ∧
        w.closedP = .rejected wErroredEx.storedError) :=
  C7_writer_construction_table wErroredEx wErroredWriter (by decide) (by decide)

/-- C8: as stated the claim is false: constructing a stream whose sink
declares a `type` fails synchronously, but with
`RangeError('Invalid type is specified')` — a range error, not a type
error. -/
theorem C8_counterexample :
    WritableStreamConstruct true 1 = .error .invalidType ∧
    Err.isTypeError .invalidType = false := by
  decide

/-- C8 (amended): constructing a stream with a sink whose `type` property is
any value other than undefined fails synchronously with a range error
(`RangeError('Invalid type is specified')`), not a type error. -/
theorem C8_reserved_type_is_range_error (hwm : Int) :
    WritableStreamConstruct true hwm = .error .invalidType ∧
    Err.isTypeError .invalidType = false := by
  constructor
  · unfold WritableStreamConstruct
    rw [if_pos rfl]
  · rfl

/-- C9: for an attached writer the `desiredSize` getter returns null when the
stream is errored or a pending abort is recorded, 0 when closed, and
`hwm - totalSize` otherwise; on a released writer it throws a lock error. -/
theorem C9_desired_size (s : WritableStream) :
    (WritableStreamDefaultWriterDesiredSizeGetter s true = .error .lockError) ∧
    (s.state = .errored ∨ s.pendingAbortRequest ≠ none →
      WritableStreamDefaultWriterDesiredSizeGetter s false = .ok none) ∧
    (s.state = .closed → s.pendingAbortRequest = none →
      WritableStreamDefaultWriterDesiredSizeGetter s false = .ok (some 0)) ∧
    (s.state = .writable → s.pendingAbortRequest = none →
      WritableStreamDefaultWriterDesiredSizeGetter s false =
        .ok (some (s.strategyHWM - GetTotalQueueSize s.queue))) := by
  refine ⟨rfl, ?_, ?_, ?_⟩
  · intro hcond
    unfold WritableStreamDefaultWriterDesiredSizeGetter
      WritableStreamDefaultWriterGetDesiredSize
    rw [if_neg (by simp), if_pos (by simpa using hcond)]
  · intro hcl hpa
    unfold WritableStreamDefaultWriterDesiredSizeGetter
      WritableStreamDefaultWriterGetDesiredSize
    rw [if_neg (by simp), if_neg (by simp [hcl, hpa]), if_pos hcl]
  · intro hwr hpa
    unfold WritableStreamDefaultWriterDesiredSizeGetter
      WritableStreamDefaultWriterGetDesiredSize
    rw [if_neg (by simp), if_neg (by simp [hwr, hpa]), if_neg (by simp [hwr])]
    rfl

theorem C9_witness :
    (WritableStreamDefaultWriterDesiredSizeGetter wClosedEx true = .error .lockError) ∧
    (WritableStreamDefaultWriterDesiredSizeGetter wErroredEx false = .ok none) ∧
    (WritableStreamDefaultWriterDesiredSizeGetter wClosedEx false = .ok (some 0)) ∧
    (WritableStreamDefaultWriterDesiredSizeGetter initHWM1 false =
      .ok (some (initHWM1.strategyHWM - GetTotalQueueSize initHWM1.queue))) :=
  ⟨(C9_desired_size wClosedEx).1,
   (C9_desired_size wErroredEx).2.1 (Or.inl (by decide)),
   (C9_desired_size wClosedEx).2.2.1 (by decide) (by decide),
   (C9_desired_size initHWM1).2.2.2 (by decide) (by decide)⟩

/-- C10: whenever the controller-level error operation completes on a
writable stream, the controller's queue is empty afterwards — every queued
chunk record and any queued close sentinel is discarded — and the stream is
`errored`. -/
theorem C10_controller_error_empties_queue (s s' : WritableStream) (e : Err)
    (hst : s.state = .writable)
    (h : WritableStreamDefaultControllerError s e = some s') :
    s'.queue = [] ∧ s'.state = .errored := by
  obtain ⟨-, h₂, h₃⟩ := controllerError_spec h
  exact ⟨h₃, h₂⟩

theorem C10_witness : wQueueErrored.queue = [] ∧ wQueueErrored.state = .errored :=
  C10_controller_error_empties_queue wQueueEx wQueueErrored (.sinkErr 4)
    (by decide) (by decide)

end Streams